import Mathlib

/-!
# `src/read.c` of the R package `openssl`: a shallow embedding

The file `read.c` is glue between R and the OpenSSL library: every function
takes R values (`SEXP`), calls OpenSSL, and returns an R value or raises an R
error.  The embedding keeps that shape.

* R values are the inductive type `SEXP`.
* A C call either returns or leaves by an R error (`Rf_error`, `error`,
  `Rf_errorcall`, or `raise_error` behind `bail`).  A call is a `Run α`: the
  outcome `Except Err α` together with the list of library calls made, in
  order (`Event`).  The list is what makes "the callback is never invoked" or
  "the encoder ran on a missing object" statable.
* OpenSSL and the R evaluator are not part of the repository.  Their functions
  are fields of the records `OpenSSL` and `RApi`; theorems quantify over them.
* C strings are lists of bytes (`List Nat`); a `char` buffer is the list of its
  cells.  `strncpy`, `strlen` follow the C standard.
-/

set_option linter.unusedVariables false

namespace Openssl

/-! ## R values -/

/-- The R values `read.c` handles. -/
inductive SEXP where
  /-- `R_NilValue` -/
  | nil
  /-- a character vector (`STRSXP`); every element is the bytes of a `CHARSXP` -/
  | str (elts : List (List Nat))
  /-- an R function (`CLOSXP`, `BUILTINSXP`, `SPECIALSXP`) -/
  | fn (id : Nat)
  /-- a raw vector (`RAWSXP`) -/
  | raw (bytes : List Nat)
  /-- an integer scalar (`ScalarInteger`) -/
  | int (v : Int)
  /-- a language pair cell built by `LCONS` -/
  | lcons (car cdr : SEXP)
  /-- a generic vector (`VECSXP`) -/
  | vec (elts : List SEXP)
  deriving Repr

mutual
/-- Boolean equality of R values. -/
def SEXP.beq : SEXP → SEXP → Bool
  | .nil, .nil => true
  | .str a, .str b => a == b
  | .fn a, .fn b => a == b
  | .raw a, .raw b => a == b
  | .int a, .int b => a == b
  | .lcons a b, .lcons c d => SEXP.beq a c && SEXP.beq b d
  | .vec a, .vec b => SEXP.beqList a b
  | _, _ => false
/-- Boolean equality of lists of R values. -/
def SEXP.beqList : List SEXP → List SEXP → Bool
  | [], [] => true
  | a :: as, b :: bs => SEXP.beq a b && SEXP.beqList as bs
  | _, _ => false
end

mutual
theorem SEXP.beq_iff : ∀ (a b : SEXP), SEXP.beq a b = true ↔ a = b
  | .nil, b => by cases b <;> simp [SEXP.beq]
  | .str a, b => by cases b <;> simp [SEXP.beq]
  | .fn a, b => by cases b <;> simp [SEXP.beq]
  | .raw a, b => by cases b <;> simp [SEXP.beq]
  | .int a, b => by cases b <;> simp [SEXP.beq]
  | .lcons a c, b => by
      cases b <;> simp [SEXP.beq, SEXP.beq_iff a, SEXP.beq_iff c]
  | .vec a, b => by
      cases b <;> simp [SEXP.beq, SEXP.beqList_iff a]
theorem SEXP.beqList_iff : ∀ (a b : List SEXP), SEXP.beqList a b = true ↔ a = b
  | [], b => by cases b <;> simp [SEXP.beqList]
  | x :: xs, b => by
      cases b <;> simp [SEXP.beqList, SEXP.beq_iff x, SEXP.beqList_iff xs]
end

instance : DecidableEq SEXP := fun a b =>
  decidable_of_iff _ (SEXP.beq_iff a b)

/-- The bytes of a string literal of the C source. -/
def cstr (s : String) : List Nat := s.toList.map Char.toNat

/-- `isNull(x)` -/
def isNull : SEXP → Bool
  | .nil => true
  | _ => false

/-- `isString(x)` -/
def isString : SEXP → Bool
  | .str _ => true
  | _ => false

/-- `isFunction(x)` -/
def isFunction : SEXP → Bool
  | .fn _ => true
  | _ => false

/-- `mkString(s)`: the character vector of length one holding `s`. -/
def mkString (s : List Nat) : SEXP := .str [s]

/-- `ScalarInteger(v)` -/
def ScalarInteger (v : Int) : SEXP := .int v

/-- `CHAR(STRING_ELT(x, i))`: `none` when the read is outside the vector. -/
def STRING_ELT (x : SEXP) (i : Nat) : Option (List Nat) :=
  match x with
  | .str elts => elts.get? i
  | _ => none

/-! ## OpenSSL objects -/

/-- A parsed certificate (an `X509 *` that is not `NULL`). -/
structure X509 where
  handle : Nat
  deriving DecidableEq, Repr

/-- A parsed archive (a `PKCS12 *` that is not `NULL`). -/
structure PKCS12 where
  handle : Nat
  deriving DecidableEq, Repr

/-- The field of `RSA` that `read.c` reads. -/
structure RSA where
  n : Nat
  deriving DecidableEq, Repr

/-- The field of `DSA` that `read.c` reads. -/
structure DSA where
  p : Nat
  deriving DecidableEq, Repr

/-- An `EC_KEY`, seen through
`EC_GROUP_get_curve_name(EC_KEY_get0_group(key))`. -/
structure EC_KEY where
  curve_name : Int
  deriving DecidableEq, Repr

/-- An `EVP_PKEY` as `read.c` observes it: the field `type`, and what
`EVP_PKEY_get1_RSA`, `EVP_PKEY_get1_DSA` and `EVP_PKEY_get1_EC_KEY` return
for it (`none` is `NULL`). -/
structure EVP_PKEY where
  type : Int
  rsa : Option RSA
  dsa : Option DSA
  ec : Option EC_KEY
  deriving DecidableEq, Repr

/-! ## Outcomes and the call record -/

/-- The ways a call leaves without a value. -/
inductive Err where
  /-- `error("No password callback supplied.")` -/
  | no_password_callback
  /-- `error("Password callback did not return a string value")` -/
  | callback_not_string
  /-- `error("Callback must be string or function")` -/
  | callback_bad_type
  /-- `Rf_errorcall(R_NilValue, "PKCS12 read failure: invalid password")` -/
  | invalid_password
  /-- `Rf_error("Unsupported key type: %d", t)` -/
  | unsupported_key_type (t : Int)
  /-- `raise_error()`, reached through `bail(0)`: the pending OpenSSL error -/
  | openssl_error
  /-- `allocVector` refusing a negative length -/
  | negative_length
  /-- behaviour the C standard leaves undefined (a read or write outside an
  object, a `NULL` dereference, a string with no terminator) -/
  | undefined
  deriving DecidableEq, Repr

/-- The library calls a run of `read.c` makes, with their arguments.  A
password argument is `none` for `NULL`, else the bytes of the C string. -/
inductive Event where
  /-- entry into `password_cb` with its `ctx` -/
  | password_cb (ctx : Option SEXP)
  /-- `R_tryEval(call, R_GlobalEnv, &err)` -/
  | tryEval (call : SEXP)
  /-- `PKCS12_verify_mac(p12, pass, passlen)` -/
  | verify_mac (pass : Option (List Nat)) (passlen : Int)
  /-- `PKCS12_parse(p12, pass, &pkey, &cert, &ca)` -/
  | pkcs12_parse (pass : Option (List Nat))
  /-- `i2d_X509(cert, &buf)` -/
  | i2d_X509 (cert : Option X509)
  /-- `i2d_PrivateKey(pkey, &buf)` -/
  | i2d_PrivateKey (pkey : Option EVP_PKEY)
  /-- `i2d_PUBKEY(pkey, &buf)` -/
  | i2d_PUBKEY (pkey : Option EVP_PKEY)
  /-- `i2d_RSA_PUBKEY(rsa, &buf)` -/
  | i2d_RSA_PUBKEY (rsa : Option RSA)
  deriving DecidableEq, Repr

instance {ε α : Type} [DecidableEq ε] [DecidableEq α] : DecidableEq (Except ε α) :=
  fun a b =>
    match a, b with
    | .ok x, .ok y =>
      if h : x = y then isTrue (by rw [h]) else isFalse (fun e => h (Except.ok.inj e))
    | .error x, .error y =>
      if h : x = y then isTrue (by rw [h]) else isFalse (fun e => h (Except.error.inj e))
    | .ok _, .error _ => isFalse (fun e => by cases e)
    | .error _, .ok _ => isFalse (fun e => by cases e)

/-- The calls that encode an object. -/
def Event.isEncode : Event → Bool
  | .i2d_X509 _ => true
  | .i2d_PrivateKey _ => true
  | .i2d_PUBKEY _ => true
  | .i2d_RSA_PUBKEY _ => true
  | _ => false

/-- A run of a C function: how it ended, and the library calls it made. -/
structure Run (α : Type) where
  result : Except Err α
  trace : List Event

/-- Return normally. -/
def Run.ret {α : Type} (a : α) : Run α := ⟨.ok a, []⟩

/-- Leave by an error. -/
def Run.fail {α : Type} (e : Err) : Run α := ⟨.error e, []⟩

/-- Record one library call. -/
def Run.emit (ev : Event) : Run Unit := ⟨.ok (), [ev]⟩

/-- Sequencing: the second part runs only if the first returned. -/
def Run.bind {α β : Type} (x : Run α) (f : α → Run β) : Run β :=
  match x.result with
  | .ok a => ⟨(f a).result, x.trace ++ (f a).trace⟩
  | .error e => ⟨.error e, x.trace⟩

instance : Monad Run where
  pure := Run.ret
  bind := Run.bind

/-! ## The C library -/

/-- `strlen(s)`: the index of the first NUL; `none` when the object holds no
NUL, where the C call reads past its end. -/
def strlen : List Nat → Option Nat
  | [] => none
  | c :: cs => if c = 0 then some 0 else (strlen cs).map (· + 1)

/-- `strncpy(dest, src, n)` for `n ≤ dest.length`: the characters of the C
string `src` up to `n` of them, NUL padding up to `n` cells, the rest of
`dest` untouched. -/
def strncpy (dest src : List Nat) (n : Nat) : List Nat :=
  (src.takeWhile (· ≠ 0)).take n
    ++ List.replicate (n - (src.takeWhile (· ≠ 0)).length) 0
    ++ dest.drop n

/-! ## What the repository does not hold -/

/-- What `PKCS12_parse` leaves behind: its return value and the three output
arguments (`none` is `NULL`). -/
structure Pkcs12Contents where
  success : Int
  pkey : Option EVP_PKEY
  cert : Option X509
  ca : Option (List X509)
  deriving DecidableEq, Repr

/-- What `PEM_read_bio` does with a buffer.  On failure it returns 0 and
writes none of its output arguments. -/
inductive PemRead where
  /-- no `-----BEGIN` line in the buffer (`PEM_R_NO_START_LINE`) -/
  | no_start_line
  /-- a `-----BEGIN` line was found, and the header, the base64 body or the
  `-----END` line of that section is malformed -/
  | bad_section
  /-- the first section was read: `*name`, `*header`, `*data` are set and
  `*len` is the length of `data` -/
  | found (name header data : List Nat)
  deriving DecidableEq, Repr

/-- The type of a `pem_password_cb` once its `ctx` is fixed: the buffer, its
size and `rwflag` go in, the return value and the buffer come out. -/
abbrev PasswordCb := List Nat → Int → Int → Run (Int × List Nat)

/-- The OpenSSL functions `read.c` calls.  An encoder `i2d_*` called with
`*buf = NULL` gives its return value and the bytes it allocated. -/
structure OpenSSL where
  d2i_PKCS12 : List Nat → Option PKCS12
  PKCS12_verify_mac : PKCS12 → Option (List Nat) → Int → Int
  PKCS12_parse : PKCS12 → Option (List Nat) → Pkcs12Contents
  PEM_read_bio : List Nat → PemRead
  PEM_read_bio_PrivateKey : List Nat → PasswordCb → Run (Option EVP_PKEY)
  PEM_read_bio_PUBKEY : List Nat → PasswordCb → Run (Option EVP_PKEY)
  PEM_read_bio_X509 : List Nat → PasswordCb → Run (Option X509)
  PEM_read_bio_RSAPublicKey : List Nat → PasswordCb → Run (Option RSA)
  d2i_PUBKEY : List Nat → Option EVP_PKEY
  d2i_PrivateKey_bio : List Nat → Option EVP_PKEY
  d2i_X509 : List Nat → Option X509
  d2i_PUBKEY_bio : List Nat → Option EVP_PKEY
  i2d_X509 : Option X509 → Int × List Nat
  i2d_PrivateKey : Option EVP_PKEY → Int × List Nat
  i2d_PUBKEY : Option EVP_PKEY → Int × List Nat
  i2d_RSA_PUBKEY : Option RSA → Int × List Nat
  X509_get_pubkey : X509 → Option EVP_PKEY
  EVP_PKEY_type : Int → Int

/-- The R evaluator.  `R_tryEval` gives `none` when it sets `ErrorOccurred`
(and returns `NULL`), else the value of the call. -/
structure RApi where
  R_tryEval : SEXP → Option SEXP

/-- Modelled from the spec: `bail` is declared in `utils.h`, which is not
among the sources.  The spec has every decoder fail with the parse error on
a malformed structure; `bail(x)` is that check: a zero argument raises the
pending OpenSSL error, any other argument returns. -/
def bail (x : Int) : Run Unit :=
  if x = 0 then Run.fail Err.openssl_error else Run.ret ()

/-- `bail(!!p)`, after which `p` is used as a valid pointer. -/
def bail_ptr {α : Type} (p : Option α) : Run α :=
  match p with
  | none => do bail 0; Run.fail Err.undefined
  | some a => do bail 1; pure a

/-- The bytes an encoder produced: the first `len` bytes of its buffer. -/
def encoded (enc : Int × List Nat) : List Nat := enc.2.take enc.1.toNat

/-- The four lines every function of `read.c` ends an encoding with:
`bail(len); res = allocVector(RAWSXP, len); memcpy(RAW(res), buf, len);
free(buf)`. -/
def raw_copy (enc : Int × List Nat) : Run SEXP := do
  bail enc.1
  if enc.1 < 0 then Run.fail Err.negative_length
  else if enc.2.length < enc.1.toNat then Run.fail Err.undefined
  else pure (SEXP.raw (encoded enc))

/-! ## `password_cb` (lines 11 to 45) -/

/-- The prompt of line 33. -/
def prompt : List Nat := cstr "Please enter private key passphrase: "

/-- Line 33: `LCONS(cb, LCONS(mkString(prompt), R_NilValue))`. -/
def callback_call (cb : SEXP) : SEXP :=
  SEXP.lcons cb (SEXP.lcons (mkString prompt) SEXP.nil)

/-- Lines 25 to 27 and again 39 to 42:
`strncpy(buf, s, max_size); buf[max_size-1] = 0; return strlen(buf);`
with `s = CHAR(STRING_ELT(x, 0))`. -/
def copy_password (buf : List Nat) (max_size : Int) (s : Option (List Nat)) :
    Run (Int × List Nat) :=
  match s with
  | none => Run.fail Err.undefined
  | some src =>
    if max_size < 1 ∨ (buf.length : Int) < max_size then Run.fail Err.undefined
    else
      let written := (strncpy buf src max_size.toNat).set (max_size.toNat - 1) 0
      match strlen written with
      | none => Run.fail Err.undefined
      | some k => pure ((k : Int), written)

/-- `password_cb(buf, max_size, rwflag, ctx)`.  The result is the return value
and the buffer as the call leaves it. -/
def password_cb (R : RApi) (buf : List Nat) (max_size rwflag : Int)
    (ctx : Option SEXP) : Run (Int × List Nat) := do
  Run.emit (Event.password_cb ctx)
  match ctx with
  | none => Run.fail Err.no_password_callback
  | some cb =>
    if isNull cb then pure (0, buf)
    else if isString cb then copy_password buf max_size (STRING_ELT cb 0)
    else if isFunction cb then do
      Run.emit (Event.tryEval (callback_call cb))
      match R.R_tryEval (callback_call cb) with
      | none => Run.fail Err.callback_not_string
      | some res =>
        if !isString res then Run.fail Err.callback_not_string
        else copy_password buf max_size (STRING_ELT res 0)
    else Run.fail Err.callback_bad_type

/-! ## `R_parse_pkcs12` (lines 160 to 220) -/

/-- `PKCS12_verify_mac(p12, pass, passlen)` -/
def call_verify_mac (ssl : OpenSSL) (p12 : PKCS12) (pass : Option (List Nat))
    (passlen : Int) : Run Int := do
  Run.emit (Event.verify_mac pass passlen)
  pure (ssl.PKCS12_verify_mac p12 pass passlen)

/-- `PKCS12_parse(p12, pass, &pkey, &cert, &ca)` -/
def call_pkcs12_parse (ssl : OpenSSL) (p12 : PKCS12) (pass : Option (List Nat)) :
    Run Pkcs12Contents := do
  Run.emit (Event.pkcs12_parse pass)
  pure (ssl.PKCS12_parse p12 pass)

/-- `i2d_X509(cert, &buf)` -/
def call_i2d_X509 (ssl : OpenSSL) (cert : Option X509) : Run (Int × List Nat) := do
  Run.emit (Event.i2d_X509 cert)
  pure (ssl.i2d_X509 cert)

/-- `i2d_PrivateKey(pkey, &buf)` -/
def call_i2d_PrivateKey (ssl : OpenSSL) (pkey : Option EVP_PKEY) :
    Run (Int × List Nat) := do
  Run.emit (Event.i2d_PrivateKey pkey)
  pure (ssl.i2d_PrivateKey pkey)

/-- `i2d_PUBKEY(pkey, &buf)` -/
def call_i2d_PUBKEY (ssl : OpenSSL) (pkey : Option EVP_PKEY) :
    Run (Int × List Nat) := do
  Run.emit (Event.i2d_PUBKEY pkey)
  pure (ssl.i2d_PUBKEY pkey)

/-- `i2d_RSA_PUBKEY(rsa, &buf)` -/
def call_i2d_RSA_PUBKEY (ssl : OpenSSL) (rsa : Option RSA) :
    Run (Int × List Nat) := do
  Run.emit (Event.i2d_RSA_PUBKEY rsa)
  pure (ssl.i2d_RSA_PUBKEY rsa)

/-- Lines 168 to 178: the three MAC checks and `PKCS12_parse`.  `passwd0` is
what the cells of `char passwd[max_size]` hold when the function is entered;
the declaration does not initialise them. -/
def pkcs12_unlock (R : RApi) (ssl : OpenSSL) (passwd0 : List Nat) (p12 : PKCS12)
    (pass : SEXP) : Run Pkcs12Contents := do
  let max_size : Int := 200
  let absent ← call_verify_mac ssl p12 none 0
  let free ← if absent ≠ 0 then pure absent else call_verify_mac ssl p12 (some []) 1
  if free ≠ 0 then
    call_pkcs12_parse ssl p12 none
  else do
    let r ← password_cb R passwd0 max_size 0 (some pass)
    match strlen r.2 with
    | none => Run.fail Err.undefined
    | some k =>
      let ok ← call_verify_mac ssl p12 (some (r.2.take k)) k
      if ok = 0 then Run.fail Err.invalid_password
      else call_pkcs12_parse ssl p12 (some (r.2.take k))

/-- The loop of lines 205 to 213 over the chain. -/
def encode_chain (ssl : OpenSSL) : List X509 → Run (List SEXP)
  | [] => pure []
  | c :: cs => do
    let enc ← call_i2d_X509 ssl (some c)
    let r ← raw_copy enc
    let rs ← encode_chain ssl cs
    pure (r :: rs)

/-- Lines 185 to 193: slot 0, set only `if (cert != NULL)`. -/
def cert_slot (ssl : OpenSSL) (cert : Option X509) : Run SEXP :=
  match cert with
  | none => pure SEXP.nil
  | some x => do
    let enc ← call_i2d_X509 ssl (some x)
    raw_copy enc

/-- Lines 194 to 202: slot 1, set only `if (pkey != NULL)`. -/
def pkey_slot (ssl : OpenSSL) (pkey : Option EVP_PKEY) : Run SEXP :=
  match pkey with
  | none => pure SEXP.nil
  | some k => do
    let enc ← call_i2d_PrivateKey ssl (some k)
    raw_copy enc

/-- Lines 203 to 217: slot 2, set only `if (ca && sk_X509_num(ca))`. -/
def chain_slot (ssl : OpenSSL) (ca : Option (List X509)) : Run SEXP :=
  match ca with
  | none => pure SEXP.nil
  | some l =>
    if l.length = 0 then pure SEXP.nil
    else do
      let bundle ← encode_chain ssl l
      pure (SEXP.vec bundle)

/-- Lines 182 to 220: the result list of three slots, each `R_NilValue` until
it is set. -/
def pkcs12_bundle (ssl : OpenSSL) (c : Pkcs12Contents) : Run SEXP := do
  let slot0 ← cert_slot ssl c.cert
  let slot1 ← pkey_slot ssl c.pkey
  let slot2 ← chain_slot ssl c.ca
  pure (SEXP.vec [slot0, slot1, slot2])

/-- `R_parse_pkcs12(input, pass)`, with the prior contents `passwd0` of the
200 cells of `passwd`. -/
def R_parse_pkcs12 (R : RApi) (ssl : OpenSSL) (passwd0 : List Nat)
    (input : List Nat) (pass : SEXP) : Run SEXP := do
  let p12 ← bail_ptr (ssl.d2i_PKCS12 input)
  let c ← pkcs12_unlock R ssl passwd0 p12 pass
  bail c.success
  pkcs12_bundle ssl c

/-! ## `R_parse_pem` (lines 47 to 64) -/

/-- `R_parse_pem(input)`.  `name`, `header`, `data` start as `NULL` and `len`
as 0; the return value of `PEM_read_bio` is not read, only `len` is. -/
def R_parse_pem (ssl : OpenSSL) (input : List Nat) : Run SEXP :=
  match ssl.PEM_read_bio input with
  | .found name header data =>
    if (data.length : Int) = 0 then pure SEXP.nil
    else pure (SEXP.vec [mkString name, mkString header, SEXP.raw data])
  | .no_start_line => pure SEXP.nil
  | .bad_section => pure SEXP.nil

/-! ## The decoders (lines 66 to 158 and 222 to 251) -/

/-- `R_parse_pem_key(input, password)` -/
def R_parse_pem_key (R : RApi) (ssl : OpenSSL) (input : List Nat) (password : SEXP) :
    Run SEXP := do
  let pkey ← ssl.PEM_read_bio_PrivateKey input
    (fun buf max_size rwflag => password_cb R buf max_size rwflag (some password))
  let pkey ← bail_ptr pkey
  let enc ← call_i2d_PrivateKey ssl (some pkey)
  raw_copy enc

/-- `R_parse_pem_pubkey(input)` -/
def R_parse_pem_pubkey (R : RApi) (ssl : OpenSSL) (input : List Nat) : Run SEXP := do
  let pkey ← ssl.PEM_read_bio_PUBKEY input
    (fun buf max_size rwflag => password_cb R buf max_size rwflag none)
  let pkey ← bail_ptr pkey
  let enc ← call_i2d_PUBKEY ssl (some pkey)
  raw_copy enc

/-- `R_parse_pem_cert(input)`: line 96 is followed by the encoding at once. -/
def R_parse_pem_cert (R : RApi) (ssl : OpenSSL) (input : List Nat) : Run SEXP := do
  let cert ← ssl.PEM_read_bio_X509 input
    (fun buf max_size rwflag => password_cb R buf max_size rwflag none)
  let enc ← call_i2d_X509 ssl cert
  raw_copy enc

/-- `R_parse_pem_pkcs1(input)` -/
def R_parse_pem_pkcs1 (R : RApi) (ssl : OpenSSL) (input : List Nat) : Run SEXP := do
  let rsa ← ssl.PEM_read_bio_RSAPublicKey input
    (fun buf max_size rwflag => password_cb R buf max_size rwflag none)
  let rsa ← bail_ptr rsa
  let enc ← call_i2d_RSA_PUBKEY ssl (some rsa)
  raw_copy enc

/-- `R_parse_der_pubkey(input)` -/
def R_parse_der_pubkey (ssl : OpenSSL) (input : List Nat) : Run SEXP := do
  let pkey ← bail_ptr (ssl.d2i_PUBKEY input)
  let enc ← call_i2d_PUBKEY ssl (some pkey)
  raw_copy enc

/-- `R_parse_der_key(input)` -/
def R_parse_der_key (ssl : OpenSSL) (input : List Nat) : Run SEXP := do
  let pkey ← bail_ptr (ssl.d2i_PrivateKey_bio input)
  let enc ← call_i2d_PrivateKey ssl (some pkey)
  raw_copy enc

/-- `R_parse_der_cert(input)` -/
def R_parse_der_cert (ssl : OpenSSL) (input : List Nat) : Run SEXP := do
  let cert ← bail_ptr (ssl.d2i_X509 input)
  let enc ← call_i2d_X509 ssl (some cert)
  raw_copy enc

/-- `R_derive_pubkey(input)` -/
def R_derive_pubkey (ssl : OpenSSL) (input : List Nat) : Run SEXP := do
  let pkey ← bail_ptr (ssl.d2i_PrivateKey_bio input)
  let enc ← call_i2d_PUBKEY ssl (some pkey)
  raw_copy enc

/-- `R_cert_pubkey(input)` -/
def R_cert_pubkey (ssl : OpenSSL) (input : List Nat) : Run SEXP := do
  let cert ← bail_ptr (ssl.d2i_X509 input)
  let key ← bail_ptr (ssl.X509_get_pubkey cert)
  let enc ← call_i2d_PUBKEY ssl (some key)
  raw_copy enc

/-! ## The key introspector (lines 253 to 313) -/

/-- `EVP_PKEY_RSA`, that is `NID_rsaEncryption` -/
def EVP_PKEY_RSA : Int := 6

/-- `EVP_PKEY_DSA`, that is `NID_dsa` -/
def EVP_PKEY_DSA : Int := 116

/-- `EVP_PKEY_EC`, that is `NID_X9_62_id_ecPublicKey` -/
def EVP_PKEY_EC : Int := 408

/-- `NID_X9_62_prime256v1`, the curve P-256 -/
def NID_X9_62_prime256v1 : Int := 415

/-- `NID_secp384r1`, the curve P-384 -/
def NID_secp384r1 : Int := 715

/-- `NID_secp521r1`, the curve P-521 -/
def NID_secp521r1 : Int := 716

/-- `BN_num_bits(a)` for a non-negative `a`: the number of significant bits. -/
def BN_num_bits (a : Nat) : Int := (Nat.size a : Int)

/-- `R_pubkey_type(input)` -/
def R_pubkey_type (ssl : OpenSSL) (input : List Nat) : Run SEXP :=
  match ssl.d2i_PUBKEY_bio input with
  | none => pure SEXP.nil
  | some pkey =>
    if ssl.EVP_PKEY_type pkey.type = EVP_PKEY_RSA then pure (mkString (cstr "rsa"))
    else if ssl.EVP_PKEY_type pkey.type = EVP_PKEY_DSA then pure (mkString (cstr "dsa"))
    else if ssl.EVP_PKEY_type pkey.type = EVP_PKEY_EC then pure (mkString (cstr "ecdsa"))
    else Run.fail (Err.unsupported_key_type (ssl.EVP_PKEY_type pkey.type))

/-- `ec_bitsize(nid)` -/
def ec_bitsize (nid : Int) : Int :=
  if nid = NID_X9_62_prime256v1 then 256
  else if nid = NID_secp384r1 then 384
  else if nid = NID_secp521r1 then 521
  else 0

/-- `R_pubkey_bitsize(input)`, compiled with elliptic curves
(`OPENSSL_NO_EC` not defined).  The accessors `EVP_PKEY_get1_*` are
dereferenced unchecked. -/
def R_pubkey_bitsize (ssl : OpenSSL) (input : List Nat) : Run SEXP :=
  match ssl.d2i_PUBKEY_bio input with
  | none => pure SEXP.nil
  | some pkey =>
    if ssl.EVP_PKEY_type pkey.type = EVP_PKEY_RSA then
      match pkey.rsa with
      | none => Run.fail Err.undefined
      | some rsa => pure (ScalarInteger (BN_num_bits rsa.n))
    else if ssl.EVP_PKEY_type pkey.type = EVP_PKEY_DSA then
      match pkey.dsa with
      | none => Run.fail Err.undefined
      | some dsa => pure (ScalarInteger (BN_num_bits dsa.p))
    else if ssl.EVP_PKEY_type pkey.type = EVP_PKEY_EC then
      match pkey.ec with
      | none => Run.fail Err.undefined
      | some key => pure (ScalarInteger (ec_bitsize key.curve_name))
    else Run.fail (Err.unsupported_key_type (ssl.EVP_PKEY_type pkey.type))

/-! ## A concrete world

A small instance of the two records, for evaluating the functions above on
concrete inputs.  An object is two bytes, the DER sequence tag 48 and a
handle; everything else is rejected. -/

/-- A PEM buffer whose only section has a body that is not base64. -/
def malformed_pem : List Nat := cstr "-----BEGIN X-----\n!\n-----END X-----\n"

/-- A PEM buffer with one well-formed section (body `AQID`, the bytes 1 2 3). -/
def good_pem : List Nat := cstr "-----BEGIN X-----\nAQID\n-----END X-----\n"

/-- Whether the buffer holds both a `-----BEGIN ` and a `-----END ` marker. -/
def has_delimiters (buf : List Nat) : Bool :=
  decide (cstr "-----BEGIN " <:+: buf) && decide (cstr "-----END " <:+: buf)

/-- The password `pw`. -/
def demo_password : List Nat := [112, 119]

/-- The private key the demo archives hold. -/
def demo_key : EVP_PKEY := ⟨6, some ⟨187⟩, none, none⟩

/-- An R session in which function 0 returns the string `pw`, function 1
returns the integer 7, and evaluating anything else fails. -/
def demoR : RApi where
  R_tryEval := fun call =>
    match call with
    | .lcons (.fn 0) _ => some (mkString demo_password)
    | .lcons (.fn 1) _ => some (SEXP.int 7)
    | _ => none

/-- An OpenSSL in which archive 0 was made with no password, archive 1 with
the empty password and an empty chain, and every other archive with the
password `pw`; public key 1 is RSA of 2048 bits, 2 is DSA, 3 is on P-256, 4 is
on a curve outside the table, 5 is of another family.  Every PEM buffer given
to a typed reader is rejected. -/
def demoSSL : OpenSSL where
  d2i_PKCS12 := fun b =>
    match b with
    | [48, h] => some ⟨h⟩
    | _ => none
  PKCS12_verify_mac := fun p12 pass passlen =>
    match p12.handle with
    | 0 => if pass = none then 1 else 0
    | 1 => if pass = some [] then 1 else 0
    | _ => if pass = some demo_password ∧ passlen = 2 then 1 else 0
  PKCS12_parse := fun p12 pass =>
    match p12.handle with
    | 0 => ⟨1, some demo_key, some ⟨10⟩, some [⟨11⟩, ⟨12⟩]⟩
    | 1 => ⟨1, some demo_key, some ⟨10⟩, some []⟩
    | _ => if pass = some demo_password then ⟨1, none, some ⟨10⟩, none⟩
      else ⟨0, none, none, none⟩
  PEM_read_bio := fun b =>
    if b = malformed_pem then PemRead.bad_section
    else if b = good_pem then PemRead.found (cstr "X") [] [1, 2, 3]
    else PemRead.no_start_line
  PEM_read_bio_PrivateKey := fun _ _ => pure none
  PEM_read_bio_PUBKEY := fun _ _ => pure none
  PEM_read_bio_X509 := fun _ _ => pure none
  PEM_read_bio_RSAPublicKey := fun _ _ => pure none
  d2i_PUBKEY := fun _ => none
  d2i_PrivateKey_bio := fun _ => none
  d2i_X509 := fun b =>
    match b with
    | [48, h] => some ⟨h⟩
    | _ => none
  d2i_PUBKEY_bio := fun b =>
    match b with
    | [48, 1] => some ⟨6, some ⟨2 ^ 2047 + 1⟩, none, none⟩
    | [48, 2] => some ⟨116, none, some ⟨23⟩, none⟩
    | [48, 3] => some ⟨408, none, none, some ⟨415⟩⟩
    | [48, 4] => some ⟨408, none, none, some ⟨714⟩⟩
    | [48, 5] => some ⟨28, none, none, none⟩
    | _ => none
  i2d_X509 := fun o =>
    match o with
    | none => (0, [])
    | some x => (2, [48, x.handle])
  i2d_PrivateKey := fun o =>
    match o with
    | none => (0, [])
    | some k => (2, [48, k.type.toNat])
  i2d_PUBKEY := fun o =>
    match o with
    | none => (0, [])
    | some k => (2, [48, k.type.toNat])
  i2d_RSA_PUBKEY := fun o =>
    match o with
    | none => (0, [])
    | some r => (2, [48, r.n])
  X509_get_pubkey := fun _ => none
  EVP_PKEY_type := fun t => t

/-! # Theorems -/

/-! ## Reasoning about runs -/

@[simp] theorem Run.result_pure {α : Type} (a : α) : (pure a : Run α).result = .ok a := rfl
@[simp] theorem Run.trace_pure {α : Type} (a : α) : (pure a : Run α).trace = [] := rfl
@[simp] theorem Run.result_ret {α : Type} (a : α) : (Run.ret a).result = .ok a := rfl
@[simp] theorem Run.trace_ret {α : Type} (a : α) : (Run.ret a).trace = [] := rfl
@[simp] theorem Run.result_fail {α : Type} (e : Err) : (Run.fail e : Run α).result = .error e := rfl
@[simp] theorem Run.trace_fail {α : Type} (e : Err) : (Run.fail e : Run α).trace = [] := rfl
@[simp] theorem Run.result_emit (ev : Event) : (Run.emit ev).result = .ok () := rfl
@[simp] theorem Run.trace_emit (ev : Event) : (Run.emit ev).trace = [ev] := rfl

theorem Run.result_bind {α β : Type} (x : Run α) (f : α → Run β) :
    (x >>= f).result = match x.result with
      | .ok a => (f a).result
      | .error e => .error e := by
  show (Run.bind x f).result = _
  unfold Run.bind
  cases x.result <;> rfl

theorem Run.trace_bind {α β : Type} (x : Run α) (f : α → Run β) :
    (x >>= f).trace = x.trace ++ match x.result with
      | .ok a => (f a).trace
      | .error _ => [] := by
  show (Run.bind x f).trace = _
  unfold Run.bind
  cases x.result <;> simp

theorem Run.result_bind_ok {α β : Type} {x : Run α} {a : α} (f : α → Run β)
    (h : x.result = .ok a) : (x >>= f).result = (f a).result := by
  rw [Run.result_bind, h]

theorem Run.trace_bind_ok {α β : Type} {x : Run α} {a : α} (f : α → Run β)
    (h : x.result = .ok a) : (x >>= f).trace = x.trace ++ (f a).trace := by
  rw [Run.trace_bind, h]

theorem Run.result_bind_error {α β : Type} {x : Run α} {e : Err} (f : α → Run β)
    (h : x.result = .error e) : (x >>= f).result = .error e := by
  rw [Run.result_bind, h]

theorem Run.trace_bind_error {α β : Type} {x : Run α} {e : Err} (f : α → Run β)
    (h : x.result = .error e) : (x >>= f).trace = x.trace := by
  rw [Run.trace_bind, h]; simp

theorem bail_trace (x : Int) : (bail x).trace = [] := by
  unfold bail; split <;> rfl

theorem raw_copy_trace (enc : Int × List Nat) : (raw_copy enc).trace = [] := by
  unfold raw_copy
  rw [Run.trace_bind, bail_trace]
  cases (bail enc.1).result <;> simp
  split_ifs <;> rfl

theorem raw_copy_ok {enc : Int × List Nat} {r : SEXP} (h : (raw_copy enc).result = .ok r) :
    0 < enc.1 ∧ (enc.1.toNat ≤ enc.2.length) ∧ r = SEXP.raw (encoded enc) := by
  unfold raw_copy at h
  rw [Run.result_bind] at h
  unfold bail at h
  by_cases h0 : enc.1 = 0
  · simp [h0] at h
  · simp only [h0, if_false, Run.result_ret] at h
    split_ifs at h with h1 h2
    · simp at h
    · simp at h
    · simp at h
      refine ⟨by omega, by omega, h.symm⟩

theorem encode_chain_trace (ssl : OpenSSL) (l : List X509) :
    ∀ ev ∈ (encode_chain ssl l).trace, ev.isEncode = true := by
  induction l with
  | nil => intro ev h; simp [encode_chain] at h
  | cons c cs ih =>
    intro ev h
    simp only [encode_chain, call_i2d_X509, Run.trace_bind, Run.result_bind, Run.result_emit,
      Run.trace_emit, Run.result_pure, Run.trace_pure, raw_copy_trace] at h
    cases hr : (raw_copy (ssl.i2d_X509 (some c))).result with
    | error e => simp [hr] at h; subst h; rfl
    | ok r =>
      simp only [hr] at h
      cases hc : (encode_chain ssl cs).result with
      | error e =>
        simp [hc] at h
        rcases h with h | h
        · subst h; rfl
        · exact ih ev h
      | ok rs =>
        simp [hc] at h
        rcases h with h | h
        · subst h; rfl
        · exact ih ev h

theorem pkcs12_unlock_free (R : RApi) (ssl : OpenSSL) (passwd0 : List Nat) (p12 : PKCS12)
    (pass : SEXP)
    (hmac : ssl.PKCS12_verify_mac p12 none 0 ≠ 0 ∨ ssl.PKCS12_verify_mac p12 (some []) 1 ≠ 0) :
    (pkcs12_unlock R ssl passwd0 p12 pass).result = .ok (ssl.PKCS12_parse p12 none) ∧
    (pkcs12_unlock R ssl passwd0 p12 pass).trace =
      if ssl.PKCS12_verify_mac p12 none 0 ≠ 0
      then [Event.verify_mac none 0, Event.pkcs12_parse none]
      else [Event.verify_mac none 0, Event.verify_mac (some []) 1, Event.pkcs12_parse none] := by
  by_cases h1 : ssl.PKCS12_verify_mac p12 none 0 = 0
  · have h2 : ssl.PKCS12_verify_mac p12 (some []) 1 ≠ 0 := by
      rcases hmac with h | h
      · exact absurd h1 h
      · exact h
    simp [pkcs12_unlock, call_verify_mac, call_pkcs12_parse, Run.trace_bind, Run.result_bind, h1, h2]
  · simp [pkcs12_unlock, call_verify_mac, call_pkcs12_parse, Run.trace_bind, Run.result_bind, h1]

theorem Run.pure_bind {α β : Type} (a : α) (f : α → Run β) : (pure a >>= f) = f a := by
  show Run.bind (Run.ret a) f = f a
  simp [Run.bind, Run.ret]

theorem bail_ptr_some {α : Type} (a : α) : bail_ptr (some a) = pure a := by
  show Run.bind (bail 1) (fun _ => pure a) = pure a
  simp [Run.bind, bail, Run.ret]
  rfl

theorem bail_ptr_none {α : Type} : (bail_ptr (none : Option α)) = Run.fail Err.openssl_error := by
  show Run.bind (bail 0) (fun _ => Run.fail Err.undefined) = _
  simp [Run.bind, bail, Run.fail]

theorem cert_slot_trace (ssl : OpenSSL) (o : Option X509) :
    ∀ ev ∈ (cert_slot ssl o).trace, ev.isEncode = true := by
  intro ev h
  cases o with
  | none => simp [cert_slot] at h
  | some cert =>
    simp [cert_slot, call_i2d_X509, Run.trace_bind, Run.result_bind, raw_copy_trace] at h
    subst h; rfl

theorem pkey_slot_trace (ssl : OpenSSL) (o : Option EVP_PKEY) :
    ∀ ev ∈ (pkey_slot ssl o).trace, ev.isEncode = true := by
  intro ev h
  cases o with
  | none => simp [pkey_slot] at h
  | some pkey =>
    simp [pkey_slot, call_i2d_PrivateKey, Run.trace_bind, Run.result_bind, raw_copy_trace] at h
    subst h; rfl

theorem chain_slot_trace (ssl : OpenSSL) (o : Option (List X509)) :
    ∀ ev ∈ (chain_slot ssl o).trace, ev.isEncode = true := by
  intro ev h
  cases o with
  | none => simp [chain_slot] at h
  | some ca =>
    by_cases hl : ca.length = 0
    · simp [chain_slot, hl] at h
    · simp only [chain_slot, hl, if_false, Run.trace_bind] at h
      rw [List.mem_append] at h
      rcases h with h | h
      · exact encode_chain_trace ssl ca ev h
      · cases hr : (encode_chain ssl ca).result <;> simp [hr] at h

theorem Run.mem_trace_bind {α β : Type} {x : Run α} {f : α → Run β} {ev : Event}
    (h : ev ∈ (x >>= f).trace) :
    ev ∈ x.trace ∨ ∃ a, x.result = .ok a ∧ ev ∈ (f a).trace := by
  rw [Run.trace_bind, List.mem_append] at h
  rcases h with h | h
  · exact Or.inl h
  · cases hr : x.result with
    | error e => simp [hr] at h
    | ok a => rw [hr] at h; exact Or.inr ⟨a, rfl, h⟩

theorem pkcs12_bundle_trace (ssl : OpenSSL) (c : Pkcs12Contents) :
    ∀ ev ∈ (pkcs12_bundle ssl c).trace, ev.isEncode = true := by
  intro ev h
  unfold pkcs12_bundle at h
  rcases Run.mem_trace_bind h with h | ⟨s0, -, h⟩
  · exact cert_slot_trace ssl _ ev h
  rcases Run.mem_trace_bind h with h | ⟨s1, -, h⟩
  · exact pkey_slot_trace ssl _ ev h
  rcases Run.mem_trace_bind h with h | ⟨s2, -, h⟩
  · exact chain_slot_trace ssl _ ev h
  simp at h

theorem R_parse_pkcs12_eq (R : RApi) (ssl : OpenSSL) (passwd0 input : List Nat) (pass : SEXP)
    (p12 : PKCS12) (hp : ssl.d2i_PKCS12 input = some p12) :
    R_parse_pkcs12 R ssl passwd0 input pass =
      (pkcs12_unlock R ssl passwd0 p12 pass >>= fun c =>
        bail c.success >>= fun _ => pkcs12_bundle ssl c) := by
  unfold R_parse_pkcs12
  rw [hp, bail_ptr_some, Run.pure_bind]

/-- Claim C1: in `R_parse_pkcs12`, for a well-formed archive whose MAC verifies
with the absent password (`PKCS12_verify_mac(p12, NULL, 0)`) or with the empty
string (`PKCS12_verify_mac(p12, "", 1)`, the second check of line 171), the
run never enters `password_cb` and never evaluates a callback, whatever `pass`
is and whatever the buffer held, and the one extraction it makes is
`PKCS12_parse` with the `NULL` password. -/
theorem pkcs12_unprotected_never_resolves (R : RApi) (ssl : OpenSSL) (passwd0 input : List Nat)
    (pass : SEXP) (p12 : PKCS12)
    (hp : ssl.d2i_PKCS12 input = some p12)
    (hmac : ssl.PKCS12_verify_mac p12 none 0 ≠ 0 ∨ ssl.PKCS12_verify_mac p12 (some []) 1 ≠ 0) :
    (∀ ctx, Event.password_cb ctx ∉ (R_parse_pkcs12 R ssl passwd0 input pass).trace) ∧
    (∀ call, Event.tryEval call ∉ (R_parse_pkcs12 R ssl passwd0 input pass).trace) ∧
    Event.pkcs12_parse none ∈ (R_parse_pkcs12 R ssl passwd0 input pass).trace ∧
    (∀ pw, Event.pkcs12_parse pw ∈ (R_parse_pkcs12 R ssl passwd0 input pass).trace →
      pw = none) := by
  obtain ⟨hres, htr⟩ := pkcs12_unlock_free R ssl passwd0 p12 pass hmac
  rw [R_parse_pkcs12_eq R ssl passwd0 input pass p12 hp]
  have htrace : (pkcs12_unlock R ssl passwd0 p12 pass >>= fun c =>
        bail c.success >>= fun _ => pkcs12_bundle ssl c).trace =
      (pkcs12_unlock R ssl passwd0 p12 pass).trace ++
        (bail (ssl.PKCS12_parse p12 none).success >>= fun _ =>
          pkcs12_bundle ssl (ssl.PKCS12_parse p12 none)).trace :=
    Run.trace_bind_ok _ hres
  have key : ∀ ev ∈ (pkcs12_unlock R ssl passwd0 p12 pass >>= fun c =>
        bail c.success >>= fun _ => pkcs12_bundle ssl c).trace,
      ev = Event.verify_mac none 0 ∨ ev = Event.verify_mac (some []) 1 ∨
      ev = Event.pkcs12_parse none ∨ ev.isEncode = true := by
    intro ev h
    rw [htrace, List.mem_append] at h
    rcases h with h | h
    · rw [htr] at h
      split_ifs at h <;> simp at h <;> tauto
    · rw [Run.trace_bind, bail_trace] at h
      cases hb : (bail (ssl.PKCS12_parse p12 none).success).result with
      | error e => simp [hb] at h
      | ok u =>
        simp only [hb, List.nil_append] at h
        have := pkcs12_bundle_trace ssl _ ev h
        tauto
  have hin : Event.pkcs12_parse none ∈ (pkcs12_unlock R ssl passwd0 p12 pass >>= fun c =>
        bail c.success >>= fun _ => pkcs12_bundle ssl c).trace := by
    rw [htrace, List.mem_append, htr]
    left
    split_ifs <;> simp
  refine ⟨?_, ?_, hin, ?_⟩
  · intro ctx h
    rcases key _ h with h | h | h | h <;> simp [Event.isEncode] at h
  · intro call h
    rcases key _ h with h | h | h | h <;> simp [Event.isEncode] at h
  · intro pw h
    rcases key _ h with h | h | h | h <;> simp [Event.isEncode] at h
    exact h

theorem password_cb_events (R : RApi) (buf : List Nat) (max_size rwflag : Int)
    (ctx : Option SEXP) :
    ∀ ev ∈ (password_cb R buf max_size rwflag ctx).trace,
      (∃ c, ev = Event.password_cb c) ∨ (∃ c, ev = Event.tryEval c) := by
  intro ev h
  unfold password_cb at h
  rcases Run.mem_trace_bind h with h | ⟨_, -, h⟩
  · simp at h; exact Or.inl ⟨_, h⟩
  cases ctx with
  | none => simp at h
  | some cb =>
    simp only at h
    split_ifs at h
    · simp at h
    · unfold copy_password at h
      split at h
      · simp at h
      · split_ifs at h
        · simp at h
        · simp only at h
          split at h <;> simp at h
    · rcases Run.mem_trace_bind h with h | ⟨_, -, h⟩
      · simp at h; exact Or.inr ⟨_, h⟩
      split at h
      · simp at h
      · split_ifs at h
        · simp at h
        · unfold copy_password at h
          split at h
          · simp at h
          · split_ifs at h
            · simp at h
            · simp only at h
              split at h <;> simp at h
    · simp at h

theorem pkcs12_unlock_locked (R : RApi) (ssl : OpenSSL) (passwd0 : List Nat) (p12 : PKCS12)
    (pass : SEXP) (r : Int × List Nat) (k : Nat)
    (h1 : ssl.PKCS12_verify_mac p12 none 0 = 0)
    (h2 : ssl.PKCS12_verify_mac p12 (some []) 1 = 0)
    (hcb : (password_cb R passwd0 200 0 (some pass)).result = .ok r)
    (hk : strlen r.2 = some k) :
    pkcs12_unlock R ssl passwd0 p12 pass =
      if ssl.PKCS12_verify_mac p12 (some (r.2.take k)) k = 0 then
        ⟨.error Err.invalid_password,
          [Event.verify_mac none 0, Event.verify_mac (some []) 1]
            ++ (password_cb R passwd0 200 0 (some pass)).trace
            ++ [Event.verify_mac (some (r.2.take k)) k]⟩
      else
        ⟨.ok (ssl.PKCS12_parse p12 (some (r.2.take k))),
          [Event.verify_mac none 0, Event.verify_mac (some []) 1]
            ++ (password_cb R passwd0 200 0 (some pass)).trace
            ++ [Event.verify_mac (some (r.2.take k)) k,
                Event.pkcs12_parse (some (r.2.take k))]⟩ := by
  have e : ∀ {α : Type} (x y : Run α), x.result = y.result → x.trace = y.trace → x = y := by
    intro α x y hr ht; cases x; cases y; simp_all
  apply e
  · split_ifs with h3 <;>
      simp [pkcs12_unlock, call_verify_mac, call_pkcs12_parse, Run.result_bind, h1, h2, hcb, hk, h3]
  · split_ifs with h3 <;>
      simp [pkcs12_unlock, call_verify_mac, call_pkcs12_parse, Run.result_bind, Run.trace_bind,
        h1, h2, hcb, hk, h3]

/-- Claim C2: in `R_parse_pkcs12`, when both password-free MAC checks fail, the
resolver returns, and the MAC check with the secret it left in the buffer
fails too, the call ends in the error "PKCS12 read failure: invalid password":
no value is returned, `PKCS12_parse` is never called and nothing is encoded. -/
theorem pkcs12_wrong_password_fails (R : RApi) (ssl : OpenSSL) (passwd0 input : List Nat)
    (pass : SEXP) (p12 : PKCS12) (r : Int × List Nat) (k : Nat)
    (hp : ssl.d2i_PKCS12 input = some p12)
    (h1 : ssl.PKCS12_verify_mac p12 none 0 = 0)
    (h2 : ssl.PKCS12_verify_mac p12 (some []) 1 = 0)
    (hcb : (password_cb R passwd0 200 0 (some pass)).result = .ok r)
    (hk : strlen r.2 = some k)
    (h3 : ssl.PKCS12_verify_mac p12 (some (r.2.take k)) k = 0) :
    (R_parse_pkcs12 R ssl passwd0 input pass).result = .error Err.invalid_password ∧
    (∀ pw, Event.pkcs12_parse pw ∉ (R_parse_pkcs12 R ssl passwd0 input pass).trace) ∧
    (∀ ev ∈ (R_parse_pkcs12 R ssl passwd0 input pass).trace, ev.isEncode = false) := by
  have hu := pkcs12_unlock_locked R ssl passwd0 p12 pass r k h1 h2 hcb hk
  rw [if_pos h3] at hu
  have hres : (pkcs12_unlock R ssl passwd0 p12 pass).result = .error Err.invalid_password := by
    rw [hu]
  have htr : (R_parse_pkcs12 R ssl passwd0 input pass).trace =
      [Event.verify_mac none 0, Event.verify_mac (some []) 1]
            ++ (password_cb R passwd0 200 0 (some pass)).trace
            ++ [Event.verify_mac (some (r.2.take k)) k] := by
    rw [R_parse_pkcs12_eq R ssl passwd0 input pass p12 hp, Run.trace_bind_error _ hres, hu]
  have key : ∀ ev ∈ (R_parse_pkcs12 R ssl passwd0 input pass).trace,
      (∃ a b, ev = Event.verify_mac a b) ∨ (∃ c, ev = Event.password_cb c) ∨
        (∃ c, ev = Event.tryEval c) := by
    intro ev h
    rw [htr] at h
    simp only [List.mem_append, List.mem_cons, List.mem_singleton, List.not_mem_nil,
      or_false] at h
    rcases h with ((h | h) | h) | h
    · exact Or.inl ⟨_, _, h⟩
    · exact Or.inl ⟨_, _, h⟩
    · exact Or.inr (password_cb_events R _ _ _ _ ev h)
    · exact Or.inl ⟨_, _, h⟩
  refine ⟨?_, ?_, ?_⟩
  · rw [R_parse_pkcs12_eq R ssl passwd0 input pass p12 hp, Run.result_bind_error _ hres]
  · intro pw h
    rcases key _ h with ⟨a, b, h⟩ | ⟨c, h⟩ | ⟨c, h⟩ <;> simp at h
  · intro ev h
    rcases key _ h with ⟨a, b, h⟩ | ⟨c, h⟩ | ⟨c, h⟩ <;> subst h <;> rfl

theorem strlen_append_zero (a b : List Nat) (ha : 0 ∉ a) :
    strlen (a ++ 0 :: b) = some a.length := by
  induction a with
  | nil => simp [strlen]
  | cons x xs ih =>
    have hx : x ≠ 0 := fun h => ha (by simp [h])
    have hxs : 0 ∉ xs := fun h => ha (by simp [h])
    simp [strlen, hx, ih hxs]

theorem takeWhile_no_nul (s : List Nat) (hs : 0 ∉ s) : s.takeWhile (· ≠ 0) = s := by
  induction s with
  | nil => rfl
  | cons x xs ih =>
    have hx : x ≠ 0 := fun h => hs (by simp [h])
    have hxs : 0 ∉ xs := fun h => hs (by simp [h])
    rw [List.takeWhile_cons, ih hxs]
    simp [hx]

/-- The buffer after `strncpy(buf, s, n); buf[n-1] = 0`. -/
theorem strncpy_set (buf s : List Nat) (n : Nat) (hs : 0 ∉ s) (hn : 1 ≤ n) :
    (strncpy buf s n).set (n - 1) 0 =
      s.take (n - 1) ++ 0 :: (List.replicate (n - 1 - s.length) 0 ++ buf.drop n) := by
  unfold strncpy
  rw [takeWhile_no_nul s hs]
  have hlenA : (s.take n ++ List.replicate (n - s.length) 0).length = n := by
    simp [List.length_take]; omega
  rw [List.set_eq_take_append_cons_drop]
  have hlt : n - 1 < (s.take n ++ List.replicate (n - s.length) 0 ++ buf.drop n).length := by
    rw [List.length_append, hlenA]; omega
  rw [if_pos hlt]
  have hdrop : (s.take n ++ List.replicate (n - s.length) 0 ++ buf.drop n).drop (n - 1 + 1) =
      buf.drop n := by
    have : n - 1 + 1 = n := by omega
    rw [this, List.drop_append_of_le_length (by omega)]
    rw [List.drop_eq_nil_of_le (by omega)]
    rfl
  have htake : (s.take n ++ List.replicate (n - s.length) 0 ++ buf.drop n).take (n - 1) =
      s.take (n - 1) ++ List.replicate (n - 1 - s.length) 0 := by
    rw [List.take_append_of_le_length (by omega)]
    rw [List.take_append_eq_append_take, List.take_take, List.take_replicate]
    have h1 : min (n - 1) n = n - 1 := by omega
    have h2 : min (n - 1 - (List.take n s).length) (n - s.length) = n - 1 - s.length := by
      simp [List.length_take]; omega
    rw [h1, h2]
  rw [hdrop, htake, List.append_assoc]
  congr 1
  generalize n - 1 - s.length = m
  induction m with
  | zero => rfl
  | succ m ih => simp only [List.replicate_succ, List.cons_append, ih]

theorem copy_password_fixed (buf s : List Nat) (n : Nat) (hs : 0 ∉ s) (hn : 1 ≤ n)
    (hb : n ≤ buf.length) :
    copy_password buf (n : Int) (some s) =
      pure (((min s.length (n - 1) : Nat) : Int),
        s.take (n - 1) ++ 0 :: (List.replicate (n - 1 - s.length) 0 ++ buf.drop n)) := by
  have hlen : strlen (s.take (n - 1) ++ 0 :: (List.replicate (n - 1 - s.length) 0 ++ buf.drop n))
      = some (min s.length (n - 1)) := by
    rw [strlen_append_zero _ _ (fun h => hs (List.mem_of_mem_take h)), List.length_take,
      Nat.min_comm]
  have c1 : ¬ ((n : Int) < 1 ∨ (buf.length : Int) < (n : Int)) := by omega
  simp only [copy_password, c1, if_false, Int.toNat_ofNat, strncpy_set buf s n hs hn, hlen]

theorem take_min_length (s : List Nat) (m : Nat) : s.take (min s.length m) = s.take m := by
  rcases Nat.le_total s.length m with h | h
  · rw [Nat.min_eq_left h, List.take_of_length_le h, List.take_of_length_le (le_refl _)]
  · rw [Nat.min_eq_right h]

theorem Run.eq_of {α : Type} {x y : Run α} (hr : x.result = y.result) (ht : x.trace = y.trace) :
    x = y := by
  cases x; cases y; simp_all

theorem password_cb_str (R : RApi) (buf : List Nat) (max_size rwflag : Int)
    (elts : List (List Nat)) :
    password_cb R buf max_size rwflag (some (SEXP.str elts)) =
      ⟨(copy_password buf max_size (elts.get? 0)).result,
        Event.password_cb (some (SEXP.str elts)) ::
          (copy_password buf max_size (elts.get? 0)).trace⟩ := by
  apply Run.eq_of <;>
    simp [password_cb, Run.result_bind, Run.trace_bind, isNull, isString, STRING_ELT]

theorem password_cb_nil (R : RApi) (buf : List Nat) (max_size rwflag : Int) :
    password_cb R buf max_size rwflag (some SEXP.nil) =
      ⟨.ok (0, buf), [Event.password_cb (some SEXP.nil)]⟩ := by
  apply Run.eq_of <;>
    simp [password_cb, Run.result_bind, Run.trace_bind, isNull]

/-- Claim C4: for a string source whose first element `s` has no NUL, and a
buffer of at least `max_size ≥ 1` cells, `password_cb` returns
`min (len s) (max_size - 1)` and leaves in the buffer that many bytes of `s`,
a NUL, NUL padding up to `max_size` and the old cells beyond; the return value
is below `max_size` and a longer `s` raises nothing.  In `R_parse_pkcs12`
(`max_size` 200, both password-free checks failing) the secret given to the
third MAC check and to `PKCS12_parse` is the first `min (len s) 199` bytes of
`s`. -/
theorem password_cb_fixed_truncates (R : RApi) (buf s : List Nat) (rest : List (List Nat))
    (max_size : Nat) (rwflag : Int)
    (hs : 0 ∉ s) (hm : 1 ≤ max_size) (hb : max_size ≤ buf.length) :
    (password_cb R buf max_size rwflag (some (SEXP.str (s :: rest)))).result =
        .ok (((min s.length (max_size - 1) : Nat) : Int),
          s.take (min s.length (max_size - 1)) ++
            0 :: (List.replicate (max_size - 1 - s.length) 0 ++ buf.drop max_size)) ∧
    ((min s.length (max_size - 1) : Nat) : Int) < max_size ∧
    ∀ (ssl : OpenSSL) (passwd0 input : List Nat) (p12 : PKCS12),
      passwd0.length = 200 → ssl.d2i_PKCS12 input = some p12 →
      ssl.PKCS12_verify_mac p12 none 0 = 0 → ssl.PKCS12_verify_mac p12 (some []) 1 = 0 →
      [Event.verify_mac none 0, Event.verify_mac (some []) 1,
        Event.password_cb (some (SEXP.str (s :: rest))),
        Event.verify_mac (some (s.take (min s.length 199))) ((min s.length 199 : Nat) : Int)]
        <+: (R_parse_pkcs12 R ssl passwd0 input (SEXP.str (s :: rest))).trace ∧
      (∀ pw, Event.pkcs12_parse pw ∈
          (R_parse_pkcs12 R ssl passwd0 input (SEXP.str (s :: rest))).trace →
        pw = some (s.take (min s.length 199))) ∧
      (ssl.PKCS12_verify_mac p12 (some (s.take (min s.length 199)))
          ((min s.length 199 : Nat) : Int) ≠ 0 →
        Event.pkcs12_parse (some (s.take (min s.length 199))) ∈
          (R_parse_pkcs12 R ssl passwd0 input (SEXP.str (s :: rest))).trace) := by
  have hcb : ∀ (b : List Nat) (n : Nat) (rw : Int), 1 ≤ n → n ≤ b.length →
      password_cb R b n rw (some (SEXP.str (s :: rest))) =
        ⟨.ok (((min s.length (n - 1) : Nat) : Int),
          s.take (min s.length (n - 1)) ++
            0 :: (List.replicate (n - 1 - s.length) 0 ++ b.drop n)),
          [Event.password_cb (some (SEXP.str (s :: rest)))]⟩ := by
    intro b n rw h1 h2
    rw [password_cb_str, List.get?_cons_zero, copy_password_fixed b s n hs h1 h2,
      take_min_length]
    rfl
  refine ⟨by rw [hcb buf max_size rwflag hm hb], by omega, ?_⟩
  intro ssl passwd0 input p12 hlen hp h1 h2
  have h200 : ((200 : Nat) : Int) = 200 := rfl
  have hc := hcb passwd0 200 0 (by omega) (by omega)
  rw [h200] at hc
  have hno : 0 ∉ s.take (min s.length (200 - 1)) := fun h => hs (List.mem_of_mem_take h)
  have hl : (s.take (min s.length (200 - 1))).length = min s.length 199 := by
    rw [List.length_take]; omega
  have hk : strlen (s.take (min s.length (200 - 1)) ++
      0 :: (List.replicate (200 - 1 - s.length) 0 ++ passwd0.drop 200)) =
      some (min s.length 199) := by
    rw [strlen_append_zero _ _ hno, hl]
  have htk : (s.take (min s.length (200 - 1)) ++
      0 :: (List.replicate (200 - 1 - s.length) 0 ++ passwd0.drop 200)).take (min s.length 199)
      = s.take (min s.length 199) := by
    rw [List.take_append_of_le_length (by omega), List.take_take]
    congr 1; omega
  have hu := pkcs12_unlock_locked R ssl passwd0 p12 (SEXP.str (s :: rest)) _ _ h1 h2
    (by rw [hc]) hk
  simp only [htk, hc] at hu
  rw [R_parse_pkcs12_eq R ssl passwd0 input _ p12 hp]
  by_cases h3 : ssl.PKCS12_verify_mac p12 (some (s.take (min s.length 199)))
      ((min s.length 199 : Nat) : Int) = 0
  · rw [if_pos h3] at hu
    rw [Run.trace_bind_error _ (show (pkcs12_unlock R ssl passwd0 p12 (SEXP.str (s :: rest))).result
      = .error Err.invalid_password by rw [hu]), hu]
    refine ⟨List.prefix_refl _, ?_, fun h => absurd h3 h⟩
    intro pw h
    simp at h
  · rw [if_neg h3] at hu
    rw [Run.trace_bind_ok _ (show (pkcs12_unlock R ssl passwd0 p12 (SEXP.str (s :: rest))).result
      = .ok _ by rw [hu]), hu]
    refine ⟨⟨Event.pkcs12_parse (some (s.take (min s.length 199))) ::
      (bail (ssl.PKCS12_parse p12 (some (s.take (min s.length 199)))).success >>= fun _ =>
        pkcs12_bundle ssl (ssl.PKCS12_parse p12 (some (s.take (min s.length 199))))).trace,
      rfl⟩, ?_, fun _ => by simp⟩
    intro pw h
    simp only [List.mem_append, List.mem_cons, List.mem_singleton, List.not_mem_nil,
      or_false] at h
    rcases h with h | h
    · simp at h
      exact h
    · rcases Run.mem_trace_bind h with h | ⟨_, -, h⟩
      · rw [bail_trace] at h; simp at h
      · have := pkcs12_bundle_trace ssl _ _ h
        simp [Event.isEncode] at this

theorem copy_password_not_cb_error (buf : List Nat) (max_size : Int) (s : Option (List Nat)) :
    (copy_password buf max_size s).result ≠ .error Err.callback_not_string := by
  unfold copy_password
  split
  · simp
  · split_ifs
    · simp
    · simp only
      split <;> simp

theorem password_cb_fn (R : RApi) (buf : List Nat) (max_size rwflag : Int) (f : Nat) :
    (password_cb R buf max_size rwflag (some (SEXP.fn f))).result =
      match R.R_tryEval (callback_call (SEXP.fn f)) with
      | none => .error Err.callback_not_string
      | some res =>
        if isString res then (copy_password buf max_size (STRING_ELT res 0)).result
        else .error Err.callback_not_string := by
  have a1 : isNull (SEXP.fn f) = false := rfl
  have a2 : isString (SEXP.fn f) = false := rfl
  have a3 : isFunction (SEXP.fn f) = true := rfl
  simp only [password_cb, Run.result_bind, Run.result_emit, a1, a2, a3]
  simp only [Bool.false_eq_true, if_false, if_true]
  cases h : R.R_tryEval (callback_call (SEXP.fn f)) with
  | none => simp [Run.result_bind]
  | some res =>
    cases hs : isString res <;> simp [Run.result_bind, hs]

/-- Claim C5: for a function source, `password_cb` ends in the error "Password
callback did not return a string value" exactly when evaluating the callback
fails or its value is not a string; in that case it returns no length at all;
when the value is a string the outcome is that of `password_cb` on this
string as a fixed source; and when the first element `s` of that string has
no NUL and the buffer has at least `max_size ≥ 1` cells, the call returns
`min (len s) (max_size - 1)` and leaves in the buffer that many bytes of `s`,
a NUL, NUL padding up to `max_size` and the old cells beyond. -/
theorem password_cb_callback_contract (R : RApi) (buf : List Nat) (max_size rwflag : Int)
    (f : Nat) :
    ((password_cb R buf max_size rwflag (some (SEXP.fn f))).result =
        .error Err.callback_not_string ↔
      (R.R_tryEval (callback_call (SEXP.fn f)) = none ∨
        ∃ v, R.R_tryEval (callback_call (SEXP.fn f)) = some v ∧ isString v = false)) ∧
    ((R.R_tryEval (callback_call (SEXP.fn f)) = none ∨
        ∃ v, R.R_tryEval (callback_call (SEXP.fn f)) = some v ∧ isString v = false) →
      ∀ n b, (password_cb R buf max_size rwflag (some (SEXP.fn f))).result ≠ .ok (n, b)) ∧
    (∀ elts, R.R_tryEval (callback_call (SEXP.fn f)) = some (SEXP.str elts) →
      (password_cb R buf max_size rwflag (some (SEXP.fn f))).result =
        (password_cb R buf max_size rwflag (some (SEXP.str elts))).result) ∧
    (∀ (s : List Nat) (rest : List (List Nat)) (n : Nat),
      R.R_tryEval (callback_call (SEXP.fn f)) = some (SEXP.str (s :: rest)) →
      max_size = (n : Int) → 0 ∉ s → 1 ≤ n → n ≤ buf.length →
      (password_cb R buf max_size rwflag (some (SEXP.fn f))).result =
        .ok (((min s.length (n - 1) : Nat) : Int),
          s.take (min s.length (n - 1)) ++
            0 :: (List.replicate (n - 1 - s.length) 0 ++ buf.drop n)) ∧
      ((min s.length (n - 1) : Nat) : Int) < max_size) := by
  have hfn := password_cb_fn R buf max_size rwflag f
  have hiff : (password_cb R buf max_size rwflag (some (SEXP.fn f))).result =
        .error Err.callback_not_string ↔
      (R.R_tryEval (callback_call (SEXP.fn f)) = none ∨
        ∃ v, R.R_tryEval (callback_call (SEXP.fn f)) = some v ∧ isString v = false) := by
    rw [hfn]
    cases h : R.R_tryEval (callback_call (SEXP.fn f)) with
    | none => simp
    | some res =>
      cases hs : isString res
      · simp [hs]
      · simp [hs]
        exact copy_password_not_cb_error _ _ _
  refine ⟨hiff, ?_, ?_, ?_⟩
  · intro h n b hok
    rw [hiff.2 h] at hok
    cases hok
  · intro elts h
    rw [hfn, h, password_cb_str]
    simp [isString, STRING_ELT]
  · intro s rest n h hn hs h1 h2
    subst hn
    refine ⟨?_, by omega⟩
    rw [hfn, h]
    simp only [isString, STRING_ELT, if_true, List.get?_cons_zero]
    rw [copy_password_fixed buf s n hs h1 h2, take_min_length]
    rfl

/-- Claim C7: `R_pubkey_type` returns `R_NilValue` exactly when the input does
not parse as a public key.  When it parses, the result is "rsa", "dsa" or
"ecdsa" exactly when `EVP_PKEY_type(pkey->type)` is `EVP_PKEY_RSA`,
`EVP_PKEY_DSA` or `EVP_PKEY_EC`; the call fails exactly when the family is
none of the three, and then with "Unsupported key type". -/
theorem pubkey_type_contract (ssl : OpenSSL) (input : List Nat) :
    ((R_pubkey_type ssl input).result = .ok SEXP.nil ↔ ssl.d2i_PUBKEY_bio input = none) ∧
    ∀ pkey, ssl.d2i_PUBKEY_bio input = some pkey →
      ((R_pubkey_type ssl input).result = .ok (mkString (cstr "rsa")) ↔
        ssl.EVP_PKEY_type pkey.type = EVP_PKEY_RSA) ∧
      ((R_pubkey_type ssl input).result = .ok (mkString (cstr "dsa")) ↔
        ssl.EVP_PKEY_type pkey.type = EVP_PKEY_DSA) ∧
      ((R_pubkey_type ssl input).result = .ok (mkString (cstr "ecdsa")) ↔
        ssl.EVP_PKEY_type pkey.type = EVP_PKEY_EC) ∧
      ((∃ e, (R_pubkey_type ssl input).result = .error e) ↔
        (ssl.EVP_PKEY_type pkey.type ≠ EVP_PKEY_RSA ∧
          ssl.EVP_PKEY_type pkey.type ≠ EVP_PKEY_DSA ∧
          ssl.EVP_PKEY_type pkey.type ≠ EVP_PKEY_EC)) ∧
      (∀ e, (R_pubkey_type ssl input).result = .error e →
        e = Err.unsupported_key_type (ssl.EVP_PKEY_type pkey.type)) := by
  have hr : mkString (cstr "rsa") ≠ mkString (cstr "dsa") := by decide
  have hr2 : mkString (cstr "rsa") ≠ mkString (cstr "ecdsa") := by decide
  have hd : mkString (cstr "dsa") ≠ mkString (cstr "ecdsa") := by decide
  have n1 : mkString (cstr "rsa") ≠ SEXP.nil := by decide
  have n2 : mkString (cstr "dsa") ≠ SEXP.nil := by decide
  have n3 : mkString (cstr "ecdsa") ≠ SEXP.nil := by decide
  have c1 : EVP_PKEY_RSA ≠ EVP_PKEY_DSA := by decide
  have c2 : EVP_PKEY_RSA ≠ EVP_PKEY_EC := by decide
  have c3 : EVP_PKEY_DSA ≠ EVP_PKEY_EC := by decide
  constructor
  · unfold R_pubkey_type
    cases h : ssl.d2i_PUBKEY_bio input with
    | none => simp
    | some pkey =>
      simp only [reduceCtorEq, iff_false]
      split_ifs <;> simp [Run.fail] <;> tauto
  · intro pkey h
    unfold R_pubkey_type
    rw [h]
    simp only
    by_cases t1 : ssl.EVP_PKEY_type pkey.type = EVP_PKEY_RSA
    · simp [t1, c1, c2, hr, hr2]
    · by_cases t2 : ssl.EVP_PKEY_type pkey.type = EVP_PKEY_DSA
      · simp [t2, c1.symm, c3, hr.symm, hd]
      · by_cases t3 : ssl.EVP_PKEY_type pkey.type = EVP_PKEY_EC
        · simp [t3, c2.symm, c3.symm, hr2.symm, hd.symm]
        · simp [t1, t2, t3]

theorem BN_num_bits_eq (a k : Nat) (hk : 0 < k) (hlo : 2 ^ (k - 1) ≤ a) (hhi : a < 2 ^ k) :
    BN_num_bits a = (k : Int) := by
  unfold BN_num_bits
  have h1 : Nat.size a ≤ k := Nat.size_le.2 hhi
  have h2 : k - 1 < Nat.size a := Nat.lt_size.2 hlo
  have : Nat.size a = k := by omega
  rw [this]

/-- Claim C6: for an input that parses as a public key, `R_pubkey_bitsize`
returns for RSA the bit length of the modulus `n` (`k` when
`2^(k-1) ≤ n < 2^k`, so 2048 for a 2048-bit key), for DSA the bit length of
the prime `p`, and for EC `ec_bitsize` of the curve name; `ec_bitsize` sends
P-256 to 256, P-384 to 384, P-521 to 521 and every other identifier to 0. -/
theorem pubkey_bitsize_contract (ssl : OpenSSL) (input : List Nat) (pkey : EVP_PKEY)
    (hp : ssl.d2i_PUBKEY_bio input = some pkey) :
    (∀ rsa, ssl.EVP_PKEY_type pkey.type = EVP_PKEY_RSA → pkey.rsa = some rsa →
      (R_pubkey_bitsize ssl input).result = .ok (ScalarInteger (BN_num_bits rsa.n)) ∧
      ∀ k : Nat, 0 < k → 2 ^ (k - 1) ≤ rsa.n → rsa.n < 2 ^ k →
        (R_pubkey_bitsize ssl input).result = .ok (ScalarInteger (k : Int))) ∧
    (∀ dsa, ssl.EVP_PKEY_type pkey.type = EVP_PKEY_DSA → pkey.dsa = some dsa →
      (R_pubkey_bitsize ssl input).result = .ok (ScalarInteger (BN_num_bits dsa.p)) ∧
      ∀ k : Nat, 0 < k → 2 ^ (k - 1) ≤ dsa.p → dsa.p < 2 ^ k →
        (R_pubkey_bitsize ssl input).result = .ok (ScalarInteger (k : Int))) ∧
    (∀ key, ssl.EVP_PKEY_type pkey.type = EVP_PKEY_EC → pkey.ec = some key →
      (R_pubkey_bitsize ssl input).result = .ok (ScalarInteger (ec_bitsize key.curve_name))) ∧
    ec_bitsize NID_X9_62_prime256v1 = 256 ∧ ec_bitsize NID_secp384r1 = 384 ∧
    ec_bitsize NID_secp521r1 = 521 ∧
    (∀ nid, nid ≠ NID_X9_62_prime256v1 → nid ≠ NID_secp384r1 → nid ≠ NID_secp521r1 →
      ec_bitsize nid = 0) := by
  have c1 : EVP_PKEY_DSA ≠ EVP_PKEY_RSA := by decide
  have c2 : EVP_PKEY_EC ≠ EVP_PKEY_RSA := by decide
  have c3 : EVP_PKEY_EC ≠ EVP_PKEY_DSA := by decide
  refine ⟨?_, ?_, ?_, by decide, by decide, by decide, ?_⟩
  · intro rsa ht hr
    have h : (R_pubkey_bitsize ssl input).result = .ok (ScalarInteger (BN_num_bits rsa.n)) := by
      simp [R_pubkey_bitsize, hp, ht, hr]
    refine ⟨h, ?_⟩
    intro k hk hlo hhi
    rw [h, BN_num_bits_eq _ k hk hlo hhi]
  · intro dsa ht hr
    have h : (R_pubkey_bitsize ssl input).result = .ok (ScalarInteger (BN_num_bits dsa.p)) := by
      simp [R_pubkey_bitsize, hp, ht, hr, c1]
    refine ⟨h, ?_⟩
    intro k hk hlo hhi
    rw [h, BN_num_bits_eq _ k hk hlo hhi]
  · intro key ht hr
    simp [R_pubkey_bitsize, hp, ht, hr, c2, c3]
  · intro nid h1 h2 h3
    simp [ec_bitsize, h1, h2, h3]

/-- Claim C8, amended: `R_parse_pem` returns `R_NilValue` exactly when
`PEM_read_bio` leaves `len` at 0: the buffer has no `-----BEGIN` line, or its
first section is malformed, or the body decodes to nothing.  It raises no
error and calls no encoder.  A section that was read with a non-empty body
yields the list (label, header, body) of that first section. -/
theorem parse_pem_absent_iff_nothing_read (ssl : OpenSSL) (input : List Nat) :
    ((R_parse_pem ssl input).result = .ok SEXP.nil ↔
      (ssl.PEM_read_bio input = PemRead.no_start_line ∨
        ssl.PEM_read_bio input = PemRead.bad_section ∨
        ∃ name header, ssl.PEM_read_bio input = PemRead.found name header [])) ∧
    (∀ e, (R_parse_pem ssl input).result ≠ .error e) ∧
    (∀ name header data, ssl.PEM_read_bio input = PemRead.found name header data →
      data ≠ [] →
      (R_parse_pem ssl input).result =
        .ok (SEXP.vec [mkString name, mkString header, SEXP.raw data])) ∧
    (R_parse_pem ssl input).trace = [] := by
  unfold R_parse_pem
  cases h : ssl.PEM_read_bio input with
  | no_start_line => simp
  | bad_section => simp
  | found name header data =>
    cases data with
    | nil => simp
    | cons d ds =>
      have : ¬ (((d :: ds).length : Int) = 0) := by simp; omega
      simp only [this, if_false]
      simp

theorem raw_copy_nonempty {enc : Int × List Nat} {r : SEXP} (h : (raw_copy enc).result = .ok r) :
    r = SEXP.raw (encoded enc) ∧ encoded enc ≠ [] := by
  obtain ⟨h1, h2, h3⟩ := raw_copy_ok h
  refine ⟨h3, ?_⟩
  intro he
  have : (encoded enc).length = enc.1.toNat := by
    unfold encoded; rw [List.length_take]; omega
  rw [he] at this
  simp at this
  omega

theorem Run.bind_ok {α β : Type} {x : Run α} {f : α → Run β} {b : β}
    (h : (x >>= f).result = .ok b) : ∃ a, x.result = .ok a ∧ (f a).result = .ok b := by
  rw [Run.result_bind] at h
  cases hx : x.result with
  | error e => rw [hx] at h; cases h
  | ok a => rw [hx] at h; exact ⟨a, rfl, h⟩

theorem cert_slot_ok (ssl : OpenSSL) (o : Option X509) (s : SEXP)
    (h : (cert_slot ssl o).result = .ok s) :
    (o = none → s = SEXP.nil) ∧
    (∀ x, o = some x → s = SEXP.raw (encoded (ssl.i2d_X509 (some x))) ∧
      encoded (ssl.i2d_X509 (some x)) ≠ []) := by
  cases o with
  | none =>
    simp [cert_slot] at h
    simp [h]
  | some x =>
    simp only [cert_slot, call_i2d_X509] at h
    obtain ⟨a, ha, h⟩ := Run.bind_ok h
    obtain ⟨u, hu, ha⟩ := Run.bind_ok ha
    simp at ha
    subst ha
    have := raw_copy_nonempty h
    simp [this]

theorem pkey_slot_ok (ssl : OpenSSL) (o : Option EVP_PKEY) (s : SEXP)
    (h : (pkey_slot ssl o).result = .ok s) :
    (o = none → s = SEXP.nil) ∧
    (∀ x, o = some x → s = SEXP.raw (encoded (ssl.i2d_PrivateKey (some x))) ∧
      encoded (ssl.i2d_PrivateKey (some x)) ≠ []) := by
  cases o with
  | none =>
    simp [pkey_slot] at h
    simp [h]
  | some x =>
    simp only [pkey_slot, call_i2d_PrivateKey] at h
    obtain ⟨a, ha, h⟩ := Run.bind_ok h
    obtain ⟨u, hu, ha⟩ := Run.bind_ok ha
    simp at ha
    subst ha
    have := raw_copy_nonempty h
    simp [this]

theorem encode_chain_ok (ssl : OpenSSL) (l : List X509) :
    ∀ rs, (encode_chain ssl l).result = .ok rs →
      rs = l.map (fun x => SEXP.raw (encoded (ssl.i2d_X509 (some x)))) ∧
      ∀ x ∈ l, encoded (ssl.i2d_X509 (some x)) ≠ [] := by
  induction l with
  | nil => intro rs h; simp [encode_chain] at h; simp [h]
  | cons c cs ih =>
    intro rs h
    simp only [encode_chain, call_i2d_X509] at h
    obtain ⟨a, ha, h⟩ := Run.bind_ok h
    obtain ⟨u, hu, ha⟩ := Run.bind_ok ha
    simp at ha
    subst ha
    obtain ⟨r, hr, h⟩ := Run.bind_ok h
    obtain ⟨rs', hrs, h⟩ := Run.bind_ok h
    simp at h
    obtain ⟨e1, e2⟩ := raw_copy_nonempty hr
    obtain ⟨i1, i2⟩ := ih rs' hrs
    subst h
    refine ⟨by simp [e1, i1], ?_⟩
    intro x hx
    rcases List.mem_cons.1 hx with hx | hx
    · subst hx; exact e2
    · exact i2 x hx

theorem chain_slot_ok (ssl : OpenSSL) (o : Option (List X509)) (s : SEXP)
    (h : (chain_slot ssl o).result = .ok s) :
    ((o = none ∨ o = some []) → s = SEXP.nil) ∧
    (∀ l, o = some l → l ≠ [] →
      s = SEXP.vec (l.map (fun x => SEXP.raw (encoded (ssl.i2d_X509 (some x))))) ∧
      ∀ x ∈ l, encoded (ssl.i2d_X509 (some x)) ≠ []) := by
  cases o with
  | none =>
    simp [chain_slot] at h
    simp [h]
  | some l =>
    by_cases hl : l.length = 0
    · simp [chain_slot, hl] at h
      have : l = [] := List.length_eq_zero.1 hl
      simp [h, this]
    · simp only [chain_slot, hl, if_false] at h
      obtain ⟨rs, hrs, h⟩ := Run.bind_ok h
      simp at h
      obtain ⟨i1, i2⟩ := encode_chain_ok ssl l rs hrs
      have hne : l ≠ [] := fun e => hl (by simp [e])
      refine ⟨?_, ?_⟩
      · intro h'
        rcases h' with h' | h'
        · cases h'
        · simp at h'; exact absurd h' hne
      · intro l' hl' _
        simp at hl'
        subst hl'
        exact ⟨by rw [← h, i1], i2⟩

theorem pkcs12_unlock_ok (R : RApi) (ssl : OpenSSL) (passwd0 : List Nat) (p12 : PKCS12)
    (pass : SEXP) (c : Pkcs12Contents)
    (h : (pkcs12_unlock R ssl passwd0 p12 pass).result = .ok c) :
    ∃ pw, c = ssl.PKCS12_parse p12 pw ∧
      Event.pkcs12_parse pw ∈ (pkcs12_unlock R ssl passwd0 p12 pass).trace := by
  by_cases hfree : ssl.PKCS12_verify_mac p12 none 0 ≠ 0 ∨
      ssl.PKCS12_verify_mac p12 (some []) 1 ≠ 0
  · obtain ⟨hr, ht⟩ := pkcs12_unlock_free R ssl passwd0 p12 pass hfree
    rw [hr] at h
    refine ⟨none, ?_, ?_⟩
    · simpa using h.symm
    · rw [ht]; split_ifs <;> simp
  · have h1 : ssl.PKCS12_verify_mac p12 none 0 = 0 := by
      by_contra hc; exact hfree (Or.inl hc)
    have h2 : ssl.PKCS12_verify_mac p12 (some []) 1 = 0 := by
      by_contra hc; exact hfree (Or.inr hc)
    cases hcb : (password_cb R passwd0 200 0 (some pass)).result with
    | error e =>
      simp [pkcs12_unlock, call_verify_mac, Run.result_bind, h1, h2, hcb] at h
    | ok r =>
      cases hk : strlen r.2 with
      | none =>
        simp [pkcs12_unlock, call_verify_mac, Run.result_bind, h1, h2, hcb, hk] at h
      | some k =>
        have hu := pkcs12_unlock_locked R ssl passwd0 p12 pass r k h1 h2 hcb hk
        by_cases h3 : ssl.PKCS12_verify_mac p12 (some (r.2.take k)) k = 0
        · rw [if_pos h3] at hu
          rw [hu] at h
          cases h
        · rw [if_neg h3] at hu
          rw [hu] at h ⊢
          refine ⟨some (r.2.take k), ?_, by simp⟩
          simpa using h.symm

/-- Claim C10, amended: when `R_parse_pkcs12` returns, the archive parsed, one
`PKCS12_parse` call of the run produced the contents, and the result is a
list of exactly three slots.  Slot 0 is `R_NilValue` when no certificate was
extracted, else the non-empty encoding of the certificate; slot 1 likewise
for the private key.  Slot 2 is `R_NilValue` when the chain is absent or
empty, else the list of the non-empty encodings of the chain certificates, in
the order of the chain. -/
theorem pkcs12_bundle_slots (R : RApi) (ssl : OpenSSL) (passwd0 input : List Nat)
    (pass res : SEXP)
    (h : (R_parse_pkcs12 R ssl passwd0 input pass).result = .ok res) :
    ∃ p12 pw s0 s1 s2,
      ssl.d2i_PKCS12 input = some p12 ∧
      Event.pkcs12_parse pw ∈ (R_parse_pkcs12 R ssl passwd0 input pass).trace ∧
      res = SEXP.vec [s0, s1, s2] ∧
      ((ssl.PKCS12_parse p12 pw).cert = none → s0 = SEXP.nil) ∧
      (∀ x, (ssl.PKCS12_parse p12 pw).cert = some x →
        s0 = SEXP.raw (encoded (ssl.i2d_X509 (some x))) ∧
        encoded (ssl.i2d_X509 (some x)) ≠ []) ∧
      ((ssl.PKCS12_parse p12 pw).pkey = none → s1 = SEXP.nil) ∧
      (∀ k, (ssl.PKCS12_parse p12 pw).pkey = some k →
        s1 = SEXP.raw (encoded (ssl.i2d_PrivateKey (some k))) ∧
        encoded (ssl.i2d_PrivateKey (some k)) ≠ []) ∧
      (((ssl.PKCS12_parse p12 pw).ca = none ∨ (ssl.PKCS12_parse p12 pw).ca = some []) →
        s2 = SEXP.nil) ∧
      (∀ l, (ssl.PKCS12_parse p12 pw).ca = some l → l ≠ [] →
        s2 = SEXP.vec (l.map (fun x => SEXP.raw (encoded (ssl.i2d_X509 (some x))))) ∧
        ∀ x ∈ l, encoded (ssl.i2d_X509 (some x)) ≠ []) := by
  cases hp : ssl.d2i_PKCS12 input with
  | none =>
    simp [R_parse_pkcs12, hp, bail_ptr_none, Run.result_bind] at h
  | some p12 =>
    rw [R_parse_pkcs12_eq R ssl passwd0 input pass p12 hp] at h ⊢
    obtain ⟨c, hc, g1⟩ := Run.bind_ok h
    obtain ⟨pw, hpw, hmem⟩ := pkcs12_unlock_ok R ssl passwd0 p12 pass c hc
    obtain ⟨u, hb, g2⟩ := Run.bind_ok g1
    unfold pkcs12_bundle at g2
    obtain ⟨s0, h0, g3⟩ := Run.bind_ok g2
    obtain ⟨s1, hs1, g4⟩ := Run.bind_ok g3
    obtain ⟨s2, hs2, g5⟩ := Run.bind_ok g4
    simp at g5
    rw [hpw] at h0 hs1 hs2
    obtain ⟨a1, a2⟩ := cert_slot_ok ssl _ s0 h0
    obtain ⟨b1, b2⟩ := pkey_slot_ok ssl _ s1 hs1
    obtain ⟨c1, c2⟩ := chain_slot_ok ssl _ s2 hs2
    refine ⟨p12, pw, s0, s1, s2, rfl, ?_, g5.symm, a1, a2, b1, b2, c1, c2⟩
    rw [Run.trace_bind_ok _ hc]
    exact List.mem_append_left _ hmem

/-! ## The decoders and the stale buffer, in general -/

/-- The six decoders that check their parser's result: when the parser
returns `NULL` they end in the OpenSSL error and call no encoder. -/
theorem decoders_check_before_encoding (R : RApi) (ssl : OpenSSL) (input : List Nat)
    (password : SEXP) :
    (ssl.d2i_PUBKEY input = none →
      R_parse_der_pubkey ssl input = ⟨.error Err.openssl_error, []⟩) ∧
    (ssl.d2i_PrivateKey_bio input = none →
      R_parse_der_key ssl input = ⟨.error Err.openssl_error, []⟩) ∧
    (ssl.d2i_X509 input = none →
      R_parse_der_cert ssl input = ⟨.error Err.openssl_error, []⟩) ∧
    (∀ t, ssl.PEM_read_bio_PrivateKey input
        (fun buf max_size rwflag => password_cb R buf max_size rwflag (some password)) =
          ⟨.ok none, t⟩ →
      R_parse_pem_key R ssl input password = ⟨.error Err.openssl_error, t⟩) ∧
    (∀ t, ssl.PEM_read_bio_PUBKEY input
        (fun buf max_size rwflag => password_cb R buf max_size rwflag none) = ⟨.ok none, t⟩ →
      R_parse_pem_pubkey R ssl input = ⟨.error Err.openssl_error, t⟩) ∧
    (∀ t, ssl.PEM_read_bio_RSAPublicKey input
        (fun buf max_size rwflag => password_cb R buf max_size rwflag none) = ⟨.ok none, t⟩ →
      R_parse_pem_pkcs1 R ssl input = ⟨.error Err.openssl_error, t⟩) := by
  refine ⟨?_, ?_, ?_, ?_, ?_, ?_⟩
  · intro h
    apply Run.eq_of <;>
      simp [R_parse_der_pubkey, h, bail_ptr_none, Run.result_bind, Run.trace_bind]
  · intro h
    apply Run.eq_of <;>
      simp [R_parse_der_key, h, bail_ptr_none, Run.result_bind, Run.trace_bind]
  · intro h
    apply Run.eq_of <;>
      simp [R_parse_der_cert, h, bail_ptr_none, Run.result_bind, Run.trace_bind]
  · intro t h
    apply Run.eq_of <;>
      simp [R_parse_pem_key, h, bail_ptr_none, Run.result_bind, Run.trace_bind]
  · intro t h
    apply Run.eq_of <;>
      simp [R_parse_pem_pubkey, h, bail_ptr_none, Run.result_bind, Run.trace_bind]
  · intro t h
    apply Run.eq_of <;>
      simp [R_parse_pem_pkcs1, h, bail_ptr_none, Run.result_bind, Run.trace_bind]

/-- `R_parse_pem_cert` does not check: when the reader returns `NULL`, the next
call is `i2d_X509(NULL, &buf)`, and the outcome is whatever `raw_copy` makes of
that encoder's answer. -/
theorem parse_pem_cert_unchecked (R : RApi) (ssl : OpenSSL) (input : List Nat)
    (t : List Event)
    (h : ssl.PEM_read_bio_X509 input
      (fun buf max_size rwflag => password_cb R buf max_size rwflag none) = ⟨.ok none, t⟩) :
    (R_parse_pem_cert R ssl input).trace = t ++ [Event.i2d_X509 none] ∧
    (R_parse_pem_cert R ssl input).result = (raw_copy (ssl.i2d_X509 none)).result := by
  constructor
  · simp [R_parse_pem_cert, h, call_i2d_X509, Run.result_bind, Run.trace_bind, raw_copy_trace]
  · simp [R_parse_pem_cert, h, call_i2d_X509, Run.result_bind]

/-- With the source `R_NilValue` and both password-free checks failing, the
third MAC check receives the C string that the cells of `passwd` held on
entry. -/
theorem pkcs12_null_source_secret (R : RApi) (ssl : OpenSSL) (passwd0 input : List Nat)
    (p12 : PKCS12) (k : Nat)
    (hp : ssl.d2i_PKCS12 input = some p12)
    (h1 : ssl.PKCS12_verify_mac p12 none 0 = 0)
    (h2 : ssl.PKCS12_verify_mac p12 (some []) 1 = 0)
    (hk : strlen passwd0 = some k) :
    [Event.verify_mac none 0, Event.verify_mac (some []) 1,
      Event.password_cb (some SEXP.nil), Event.verify_mac (some (passwd0.take k)) k]
      <+: (R_parse_pkcs12 R ssl passwd0 input SEXP.nil).trace := by
  have hu := pkcs12_unlock_locked R ssl passwd0 p12 SEXP.nil (0, passwd0) k h1 h2
    (by rw [password_cb_nil]) hk
  rw [password_cb_nil] at hu
  rw [R_parse_pkcs12_eq R ssl passwd0 input _ p12 hp]
  by_cases h3 : ssl.PKCS12_verify_mac p12 (some (passwd0.take k)) k = 0
  · rw [if_pos h3] at hu
    rw [Run.trace_bind_error _ (show (pkcs12_unlock R ssl passwd0 p12 SEXP.nil).result
      = .error Err.invalid_password by rw [hu]), hu]
    exact List.prefix_refl _
  · rw [if_neg h3] at hu
    rw [Run.trace_bind_ok _ (show (pkcs12_unlock R ssl passwd0 p12 SEXP.nil).result
      = .ok _ by rw [hu]), hu]
    exact ⟨Event.pkcs12_parse (some (passwd0.take k)) ::
      (bail (ssl.PKCS12_parse p12 (some (passwd0.take k))).success >>= fun _ =>
        pkcs12_bundle ssl (ssl.PKCS12_parse p12 (some (passwd0.take k)))).trace, rfl⟩

/-! ## The claims at concrete inputs -/

set_option maxRecDepth 16384

/-- Archive 1 of the demo world verifies with the empty string only; parsing
it with a callback as the password source never calls the resolver. -/
theorem pkcs12_unprotected_never_resolves_witness :
    demoSSL.d2i_PKCS12 [48, 1] = some ⟨1⟩ ∧
    demoSSL.PKCS12_verify_mac ⟨1⟩ (some []) 1 ≠ 0 ∧
    (∀ ctx, Event.password_cb ctx ∉
      (R_parse_pkcs12 demoR demoSSL (List.replicate 200 0) [48, 1] (SEXP.fn 0)).trace) ∧
    Event.pkcs12_parse none ∈
      (R_parse_pkcs12 demoR demoSSL (List.replicate 200 0) [48, 1] (SEXP.fn 0)).trace :=
  have h := pkcs12_unprotected_never_resolves demoR demoSSL (List.replicate 200 0) [48, 1]
    (SEXP.fn 0) ⟨1⟩ rfl (Or.inr (by decide))
  ⟨rfl, by decide, h.1, h.2.2.1⟩

/-- Archive 2 of the demo world is protected by `pw`; the password `no` is
refused. -/
theorem pkcs12_wrong_password_fails_witness :
    demoSSL.PKCS12_verify_mac ⟨2⟩ (some [110, 111]) 2 = 0 ∧
    (R_parse_pkcs12 demoR demoSSL (List.replicate 200 0) [48, 2]
      (mkString [110, 111])).result = .error Err.invalid_password ∧
    (∀ pw, Event.pkcs12_parse pw ∉
      (R_parse_pkcs12 demoR demoSSL (List.replicate 200 0) [48, 2]
        (mkString [110, 111])).trace) :=
  have h := pkcs12_wrong_password_fails demoR demoSSL (List.replicate 200 0) [48, 2]
    (mkString [110, 111]) ⟨2⟩ (2, 110 :: 111 :: List.replicate 198 0) 2
    rfl rfl rfl rfl rfl rfl
  ⟨rfl, h.1, h.2.1⟩

/-- Claim C3 at a failing input: archive 2 needs a password, the source is
`R_NilValue`, and the cells of `passwd` hold the letter A and then zeros.
`password_cb` returns 0 and touches nothing; `R_parse_pkcs12` then hands the
one-byte secret `A` to the third MAC check. -/
theorem pkcs12_null_source_reads_stale_buffer :
    (password_cb demoR (65 :: List.replicate 199 0) 200 0 (some SEXP.nil)).result =
      .ok (0, 65 :: List.replicate 199 0) ∧
    (R_parse_pkcs12 demoR demoSSL (65 :: List.replicate 199 0) [48, 2] SEXP.nil).trace =
      [Event.verify_mac none 0, Event.verify_mac (some []) 1,
        Event.password_cb (some SEXP.nil), Event.verify_mac (some [65]) 1] ∧
    (R_parse_pkcs12 demoR demoSSL (112 :: 119 :: List.replicate 198 0) [48, 2] SEXP.nil).trace =
      [Event.verify_mac none 0, Event.verify_mac (some []) 1,
        Event.password_cb (some SEXP.nil), Event.verify_mac (some [112, 119]) 2,
        Event.pkcs12_parse (some [112, 119]), Event.i2d_X509 (some ⟨10⟩)] := by
  decide

/-- A six-byte password copied into a buffer with room for four. -/
theorem password_cb_fixed_truncates_witness :
    (0 : Nat) ∉ [1, 2, 3, 4, 5, 6] ∧
    (password_cb demoR [9, 9, 9, 9, 9] 4 0 (some (mkString [1, 2, 3, 4, 5, 6]))).result =
      .ok (3, [1, 2, 3, 0, 9]) :=
  ⟨by decide, (password_cb_fixed_truncates demoR [9, 9, 9, 9, 9] [1, 2, 3, 4, 5, 6] [] 4 0
    (by decide) (by decide) (by decide)).1⟩

/-- Function 0 of the demo session returns `pw`, function 1 an integer, and
function 2 fails.  With 200 cells the password `pw` is copied whole; with
room for two cells only its first byte is kept. -/
theorem password_cb_callback_contract_witness :
    (password_cb demoR (List.replicate 200 9) 200 0 (some (SEXP.fn 0))).result =
      .ok (2, 112 :: 119 :: List.replicate 198 0) ∧
    (password_cb demoR [9, 9, 9] 2 0 (some (SEXP.fn 0))).result = .ok (1, [112, 0, 9]) ∧
    (password_cb demoR (List.replicate 200 0) 200 0 (some (SEXP.fn 0))).result =
      (password_cb demoR (List.replicate 200 0) 200 0
        (some (mkString demo_password))).result ∧
    (password_cb demoR (List.replicate 200 0) 200 0 (some (SEXP.fn 1))).result =
      .error Err.callback_not_string ∧
    (password_cb demoR (List.replicate 200 0) 200 0 (some (SEXP.fn 2))).result =
      .error Err.callback_not_string :=
  ⟨((password_cb_callback_contract demoR (List.replicate 200 9) 200 0 0).2.2.2
      demo_password [] 200 rfl rfl (by decide) (by decide) (by decide)).1,
   ((password_cb_callback_contract demoR [9, 9, 9] 2 0 0).2.2.2
      demo_password [] 2 rfl rfl (by decide) (by decide) (by decide)).1,
   (password_cb_callback_contract demoR (List.replicate 200 0) 200 0 0).2.2.1 _ rfl,
   (password_cb_callback_contract demoR (List.replicate 200 0) 200 0 1).1.2
     (Or.inr ⟨SEXP.int 7, rfl, rfl⟩),
   (password_cb_callback_contract demoR (List.replicate 200 0) 200 0 2).1.2 (Or.inl rfl)⟩

/-- Public key 1 of the demo world is RSA with the modulus `2^2047 + 1`, key 3
is on P-256 and key 4 on a curve outside the table. -/
theorem pubkey_bitsize_contract_witness :
    (R_pubkey_bitsize demoSSL [48, 1]).result = .ok (ScalarInteger 2048) ∧
    (R_pubkey_bitsize demoSSL [48, 3]).result = .ok (ScalarInteger 256) ∧
    (R_pubkey_bitsize demoSSL [48, 4]).result = .ok (ScalarInteger 0) :=
  ⟨((pubkey_bitsize_contract demoSSL [48, 1] ⟨6, some ⟨2 ^ 2047 + 1⟩, none, none⟩ rfl).1
      ⟨2 ^ 2047 + 1⟩ rfl rfl).2 2048 (by norm_num) (by norm_num) (by norm_num),
   (pubkey_bitsize_contract demoSSL [48, 3] ⟨408, none, none, some ⟨415⟩⟩ rfl).2.2.1
      ⟨415⟩ rfl rfl,
   (pubkey_bitsize_contract demoSSL [48, 4] ⟨408, none, none, some ⟨714⟩⟩ rfl).2.2.1
      ⟨714⟩ rfl rfl⟩

/-- The five public keys of the demo world and a buffer that is no key. -/
theorem pubkey_type_contract_witness :
    (R_pubkey_type demoSSL [48, 1]).result = .ok (mkString (cstr "rsa")) ∧
    (R_pubkey_type demoSSL [48, 2]).result = .ok (mkString (cstr "dsa")) ∧
    (R_pubkey_type demoSSL [48, 3]).result = .ok (mkString (cstr "ecdsa")) ∧
    (R_pubkey_type demoSSL [48, 5]).result = .error (Err.unsupported_key_type 28) ∧
    (R_pubkey_type demoSSL [0]).result = .ok SEXP.nil :=
  ⟨((pubkey_type_contract demoSSL [48, 1]).2 _ rfl).1.2 rfl,
   ((pubkey_type_contract demoSSL [48, 2]).2 _ rfl).2.1.2 rfl,
   ((pubkey_type_contract demoSSL [48, 3]).2 _ rfl).2.2.1.2 rfl,
   by decide,
   (pubkey_type_contract demoSSL [0]).1.2 rfl⟩

/-- Claim C8 refuted as stated: the buffer `malformed_pem` holds a BEGIN and an
END line around a body that is not base64, `PEM_read_bio` fails on it, and
`R_parse_pem` reports it absent, with no error. -/
theorem parse_pem_malformed_reported_absent :
    has_delimiters malformed_pem = true ∧
    demoSSL.PEM_read_bio malformed_pem = PemRead.bad_section ∧
    (R_parse_pem demoSSL malformed_pem).result = .ok SEXP.nil := by
  decide

/-- The well-formed section of `good_pem` is returned as a triple. -/
theorem parse_pem_absent_iff_nothing_read_witness :
    (R_parse_pem demoSSL good_pem).result =
      .ok (SEXP.vec [mkString (cstr "X"), mkString [], SEXP.raw [1, 2, 3]]) :=
  (parse_pem_absent_iff_nothing_read demoSSL good_pem).2.2.1 (cstr "X") [] [1, 2, 3]
    (by decide) (by decide)

/-- Claim C9 at a failing input: the buffer 1 2 3 is no PEM and the reader
returns `NULL`.  `R_parse_pem_cert` has no `bail(!!cert)` and passes the
`NULL` to `i2d_X509`; `R_parse_der_cert` and `R_parse_pem_pkcs1` stop at the
check with nothing encoded. -/
theorem parse_pem_cert_encodes_missing_object :
    (R_parse_pem_cert demoR demoSSL [1, 2, 3]).trace = [Event.i2d_X509 none] ∧
    (R_parse_pem_cert demoR demoSSL [1, 2, 3]).result = .error Err.openssl_error ∧
    (R_parse_der_cert demoSSL [1, 2, 3]).trace = [] ∧
    (R_parse_der_cert demoSSL [1, 2, 3]).result = .error Err.openssl_error ∧
    (R_parse_pem_pkcs1 demoR demoSSL [1, 2, 3]).trace = [] ∧
    (R_parse_pem_pkcs1 demoR demoSSL [1, 2, 3]).result = .error Err.openssl_error := by
  decide

/-- Claim C10 refuted as stated: archive 1 of the demo world holds a
certificate, a key and a chain of length zero.  Slot 2 of the result is
`R_NilValue`, which is no list. -/
theorem pkcs12_empty_chain_slot_is_nil :
    (demoSSL.PKCS12_parse ⟨1⟩ none).ca = some [] ∧
    (R_parse_pkcs12 demoR demoSSL (List.replicate 200 0) [48, 1] SEXP.nil).result =
      .ok (SEXP.vec [SEXP.raw [48, 10], SEXP.raw [48, 6], SEXP.nil]) ∧
    ∀ l : List SEXP, SEXP.nil ≠ SEXP.vec l := by
  refine ⟨by decide, by decide, ?_⟩
  intro l h
  cases h

/-- Archive 0 of the demo world holds a certificate, a key and two chain
certificates. -/
theorem pkcs12_bundle_slots_witness :
    (R_parse_pkcs12 demoR demoSSL (List.replicate 200 0) [48, 0] SEXP.nil).result =
      .ok (SEXP.vec [SEXP.raw [48, 10], SEXP.raw [48, 6],
        SEXP.vec [SEXP.raw [48, 11], SEXP.raw [48, 12]]]) ∧
    ∃ p12 pw s0 s1 s2,
      demoSSL.d2i_PKCS12 [48, 0] = some p12 ∧
      Event.pkcs12_parse pw ∈
        (R_parse_pkcs12 demoR demoSSL (List.replicate 200 0) [48, 0] SEXP.nil).trace ∧
      SEXP.vec [SEXP.raw [48, 10], SEXP.raw [48, 6],
        SEXP.vec [SEXP.raw [48, 11], SEXP.raw [48, 12]]] = SEXP.vec [s0, s1, s2] :=
  have h := pkcs12_bundle_slots demoR demoSSL (List.replicate 200 0) [48, 0] SEXP.nil
    (SEXP.vec [SEXP.raw [48, 10], SEXP.raw [48, 6],
      SEXP.vec [SEXP.raw [48, 11], SEXP.raw [48, 12]]]) (by decide)
  ⟨by decide, by
    obtain ⟨p12, pw, s0, s1, s2, h1, h2, h3, -⟩ := h
    exact ⟨p12, pw, s0, s1, s2, h1, h2, h3⟩⟩

end Openssl
